import Mathlib

/-!
Shallow embedding of the interface reconciliation engine of
vnet-manager (src/vnet_manager/operations/interface.py).

Kernel link state, the iptables rule table and the live process table are
modelled explicitly as a `World`; every operation of the Python module is
translated to a Lean function that threads the world and records the calls
it makes as a trace of `Event`s.  Python exceptions (IndexError from
indexing an empty `link_lookup` result, NetlinkError, KeyError from NDB)
are modelled with `Except`: an error aborts the rest of the computation,
exactly as an uncaught Python exception aborts the pass, while the world
and trace accumulated so far are kept.
-/

namespace VNet

/-- A kernel network link: name, kind (bridge or veth), operational
state, L2 address, optional master (bridge membership), optional veth
peer, and the bridge STP flag. MAC addresses are modelled as naturals. -/
structure Link where
  name : String
  kind : String
  isUp : Bool
  mac : Nat
  master : Option String
  peer : Option String
  brStp : Bool
deriving Repr, DecidableEq

/-- The ambient host state the engine acts on: the kernel link table, the
iptables rule table, the live process table (each process is its argument
list), an entropy counter feeding the random MAC generator, and an
environment oracle naming the rules whose insertion the external iptables
binary rejects (modelling CalledProcessError on `iptables -A`). -/
structure World where
  links : List Link
  rules : List String
  procs : List (List String)
  macCtr : Nat
  iptablesFail : List String
deriving Repr, DecidableEq

/-- The host with nothing provisioned and a well-behaved environment. -/
def World.empty : World := ⟨[], [], [], 0, []⟩

/-- One call the engine makes: mutating kernel calls, external-tool
invocations, process spawns and log lines. -/
inductive Event where
  | linkAdd (name kind : String) (peer : Option String)
  | linkSetState (name : String) (up : Bool)
  | linkSetAddress (name : String) (mac : Nat)
  | linkSetMaster (name bridge : String)
  | linkDel (name : String)
  | setBrStp (name : String) (stp : Bool)
  | iptablesCheck (rule : String)
  | iptablesAppend (rule : String)
  | spawnTcpdump (ifname path : String)
  | logDebug (msg : String)
  | logInfo (msg : String)
  | logWarning (msg : String)
  | logError (msg : String)
deriving Repr, DecidableEq

/-- The calls that mutate kernel interface state (netlink writes), as
opposed to queries, external-tool calls, process spawns and log lines. -/
def Event.isMutatingKernelCall : Event → Bool
  | .linkAdd _ _ _ => true
  | .linkSetState _ _ => true
  | .linkSetAddress _ _ => true
  | .linkSetMaster _ _ => true
  | .linkDel _ => true
  | .setBrStp _ _ => true
  | _ => false

/-- Is this event a link deletion? -/
def Event.isLinkDel : Event → Bool
  | .linkDel _ => true
  | _ => false

/-- Is this event a link creation? -/
def Event.isLinkAdd : Event → Bool
  | .linkAdd _ _ _ => true
  | _ => false

/-- Is this event a warning log line? -/
def Event.isWarning : Event → Bool
  | .logWarning _ => true
  | _ => false

/-- Is this event a set-link-state call? -/
def Event.isSetState : Event → Bool
  | .linkSetState _ _ => true
  | _ => false

/-- The interface a set-state event names (used to state phase ordering). -/
def Event.stateName : Event → Option String
  | .linkSetState n _ => some n
  | _ => none

/-- Result of one engine operation: normal return or a propagating Python
exception, the world after the operation, and the calls it made. -/
structure Out where
  res : Except String Unit
  w : World
  tr : List Event
deriving Repr

/-- Did the operation abort with an exception? -/
def Out.failed (o : Out) : Bool :=
  match o.res with
  | .error _ => true
  | .ok _ => false

/-- Sequencing with Python exception semantics: if the first operation
raised, the second never runs; otherwise traces accumulate. -/
def Out.andThen (o : Out) (k : World → Out) : Out :=
  match o.res with
  | .error _ => o
  | .ok _ =>
    let o2 := k o.w
    ⟨o2.res, o2.w, o.tr ++ o2.tr⟩

/-- Lift an operation that cannot raise. -/
def Out.step (p : World × List Event) : Out := ⟨.ok (), p.1, p.2⟩

/-- An operation that does nothing. -/
def Out.skip (w : World) : Out := ⟨.ok (), w, []⟩

/-- Declarative veth entry of the config: `bridge` (mandatory string),
optional `peer`, optional `stp` (shapes enforced by
vnet_manager/config/validate.py, validate_veth_config). -/
structure VethSpec where
  bridge : String
  peer : Option String
  stp : Option Bool
deriving Repr, DecidableEq

/-- The part of the validated config the interface operations read:
`switches` (a non-negative int), the machines mapping (machine name to
its interfaces, each naming the bridge index it connects to, an int per
validate_interface_config), and the optional `veths` mapping.  Python
dicts iterate in insertion order, so the mappings are association
lists. -/
structure Config where
  switches : Nat
  machines : List (String × List (String × Int))
  veths : Option (List (String × VethSpec))
deriving Repr, DecidableEq

/-- Modelled from the spec: `settings.VNET_BRIDGE_NAME` lives in
vnet_manager/conf, which is not under src/.  The spec fixes only the
naming convention, a constant prefix completed by the switch index; the
concrete string is immaterial to every claim. -/
def VNET_BRIDGE_NAME : String := "vnet-br"

/-- Modelled from the spec: `settings.VNET_SNIFFER_PCAP_DIR` (fixed
directory for capture output files) lives in vnet_manager/conf, not under
src/.  The concrete path is immaterial; output files are named
`<interface_name>.pcap` inside it. -/
def VNET_SNIFFER_PCAP_DIR : String := "/tmp/vnet_sniffer"

/-- `get_vnet_interface_names_from_config`: the switch bridge names,
`VNET_BRIDGE_NAME + str(i)` for i in range(0, config["switches"]). -/
def get_vnet_interface_names_from_config (config : Config) : List String :=
  (List.range config.switches).map (fun i => VNET_BRIDGE_NAME ++ toString i)

/-- `int(ifname[-1])` as the source applies it: the digit value of the
last character.  Python raises for a name not ending in a digit and for
the empty string; every call site passes a bridge name ending in a digit,
so those cases never arise (we return an out-of-range value there). -/
def lastCharInt (s : String) : Int :=
  match s.toList.getLast? with
  | some c => Int.ofNat c.toNat - 48
  | none => -1

/-- `get_machines_by_vnet_interface_name`: scan the machine/interface
declarations and append the machine name once per interface whose
`bridge` field equals `int(ifname[-1])`. -/
def get_machines_by_vnet_interface_name (config : Config) (ifname : String) : List String :=
  (config.machines.map
    (fun md => (md.2.filter (fun intData => intData.2 == lastCharInt ifname)).map
      (fun _ => md.1))).flatten

/-- Does this link carry the given name? -/
def nameIs (ifname : String) (l : Link) : Bool := l.name == ifname

/-- Index of the first element satisfying `p`. -/
def lookupIdx (p : Link → Bool) : List Link → Option Nat
  | [] => none
  | l :: rest => if p l then some 0 else (lookupIdx p rest).map (· + 1)

/-- `IPRoute().link_lookup(ifname=...)`, followed in the source either by
an emptiness test or by `[0]`: the index of the first link with the given
name, if any. -/
def linkLookup (w : World) (ifname : String) : Option Nat :=
  lookupIdx (nameIs ifname) w.links

/-- `check_if_interface_exists`: whether `link_lookup` found anything. -/
def check_if_interface_exists (w : World) (ifname : String) : Bool :=
  (linkLookup w ifname).isSome

/-- Apply `f` to the link at kernel index `i`. -/
def modifyAt (ls : List Link) (i : Nat) (f : Link → Link) : List Link :=
  match ls, i with
  | [], _ => []
  | l :: rest, 0 => f l :: rest
  | l :: rest, Nat.succ j => l :: modifyAt rest j f

/-- `ip.link("set", index=i, state=...)`. -/
def setLinkStateAt (w : World) (i : Nat) (up : Bool) : World :=
  { w with links := modifyAt w.links i (fun l => { l with isUp := up }) }

/-- `ip.link("set", index=i, address=...)`. -/
def setLinkAddressAt (w : World) (i : Nat) (mac : Nat) : World :=
  { w with links := modifyAt w.links i (fun l => { l with mac := mac }) }

/-- `ip.link("set", index=i, master=...)`: record bridge membership by
the master bridge name. -/
def setLinkMasterAt (w : World) (i : Nat) (master : String) : World :=
  { w with links := modifyAt w.links i (fun l => { l with master := some master }) }

/-- NDB `bridge.set("br_stp_state", 0|1)` at index `i`, as a flag. -/
def setBrStpAt (w : World) (i : Nat) (stp : Bool) : World :=
  { w with links := modifyAt w.links i (fun l => { l with brStp := stp }) }

/-- Modelled from the spec: `random_mac_generator` lives in
vnet_manager/utils/mac.py, which is not under src/.  The spec says
`initialize_interface` assigns a freshly generated random MAC address and
re-randomizes the MAC on every call; we model the generator as an
abstract entropy stream read through a counter, so successive draws are
distinct. -/
def random_mac_generator (w : World) : Nat × World :=
  (w.macCtr, { w with macCtr := w.macCtr + 1 })

/-- `configure_vnet_interface`: look the interface up (`[0]` raises
IndexError when absent), set it down, assign a fresh random MAC, bring
it up. -/
def configure_vnet_interface (ifname : String) (w : World) : Out :=
  match linkLookup w ifname with
  | none => ⟨.error "IndexError: list index out of range", w, []⟩
  | some dev =>
    let w1 := setLinkStateAt w dev false
    let (mac, w2) := random_mac_generator w1
    let w3 := setLinkAddressAt w2 dev mac
    let w4 := setLinkStateAt w3 dev true
    ⟨.ok (), w4,
      [.linkSetState ifname false, .linkSetAddress ifname mac, .linkSetState ifname true]⟩

/-- `configure_veth_interface`: log, look up the veth and its bridge
(either `[0]` raises IndexError when the link is absent), and set the
veth's master to the bridge. -/
def configure_veth_interface (name : String) (data : VethSpec) (w : World) : Out :=
  let tr0 := [Event.logInfo ("Creating VNet veth interface " ++ name)]
  match linkLookup w name with
  | none => ⟨.error "IndexError: list index out of range", w, tr0⟩
  | some dev =>
    match linkLookup w data.bridge with
    | none => ⟨.error "IndexError: list index out of range", w, tr0⟩
    | some _ =>
      ⟨.ok (), setLinkMasterAt w dev data.bridge,
        tr0 ++ [.linkSetMaster name data.bridge]⟩

/-- `create_vnet_interface`: log, add a bridge link, then
`configure_vnet_interface` it.  A fresh link starts down with a default
address and no master. -/
def create_vnet_interface (ifname : String) (w : World) : Out :=
  let w1 := { w with links := w.links ++ [⟨ifname, "bridge", false, 0, none, none, false⟩] }
  let o := configure_vnet_interface ifname w1
  ⟨o.res, o.w,
    .logInfo ("Creating VNet bridge interface " ++ ifname) ::
    .linkAdd ifname "bridge" none :: o.tr⟩

/-- `create_veth_interface`: only if the entry has a `peer` is the veth
pair created (both halves enter the kernel link table); without a peer
this is a no-op. -/
def create_veth_interface (name : String) (data : VethSpec) (w : World) : World × List Event :=
  match data.peer with
  | some p =>
    ({ w with links := w.links ++
        [⟨name, "veth", false, 0, none, some p, false⟩,
         ⟨p, "veth", false, 0, none, some name, false⟩] },
     [.linkAdd name "veth" (some p)])
  | none => (w, [])

/-- The drop rule `create_vnet_interface_iptables_rules` manages for one
interface. -/
def iptablesRuleFor (ifname : String) : String :=
  "OUTPUT -o " ++ ifname ++ " -j DROP"

/-- `create_vnet_interface_iptables_rules`: check with `iptables -C`
whether the exact rule is present; if so skip, otherwise `iptables -A`;
a failing insertion (CalledProcessError) is caught and logged as an
error, never propagated. -/
def create_vnet_interface_iptables_rules (ifname : String) (w : World) : World × List Event :=
  let rule := iptablesRuleFor ifname
  if w.rules.contains rule then
    (w, [.iptablesCheck rule,
         .logDebug ("IPtables DROP rule for VNet interface " ++ ifname ++
           " already exists, skipping creation")])
  else if w.iptablesFail.contains rule then
    (w, [.iptablesCheck rule,
         .logInfo ("Creating IPtables DROP rule to the outside world for VNet interface " ++ ifname),
         .iptablesAppend rule,
         .logError "Unable to create IPtables rule"])
  else
    ({ w with rules := w.rules ++ [rule] },
     [.iptablesCheck rule,
      .logInfo ("Creating IPtables DROP rule to the outside world for VNet interface " ++ ifname),
      .iptablesAppend rule])

/-- `check_if_sniffer_exists`: scan the live process table for a process
whose argument list contains both the literal token "tcpdump" and the
interface name. -/
def check_if_sniffer_exists (w : World) (ifname : String) : Bool :=
  w.procs.any (fun p => p.contains "tcpdump" && p.contains ifname)

/-- `start_tcpdump_on_vnet_interface`: spawn a detached tcpdump writing
to `<VNET_SNIFFER_PCAP_DIR>/<ifname>.pcap`; the new process enters the
live process table. -/
def start_tcpdump_on_vnet_interface (ifname : String) (w : World) : World × List Event :=
  let path := VNET_SNIFFER_PCAP_DIR ++ "/" ++ ifname ++ ".pcap"
  ({ w with procs := w.procs ++ [["tcpdump", "-i", ifname, "-U", "-w", path]] },
   [.logInfo ("Starting sniffer on VNet interface " ++ ifname ++ ", PCAP location: " ++ path),
    .spawnTcpdump ifname path])

/-- `ip.link("set", ifname=..., state="up")` addressed by name: pyroute2
resolves the name itself and raises when it is absent. -/
def ipLinkSetUpByName (ifname : String) (w : World) : Out :=
  match linkLookup w ifname with
  | none => ⟨.error "NetlinkError", w, []⟩
  | some i => ⟨.ok (), setLinkStateAt w i true, [.linkSetState ifname true]⟩

/-- One iteration of the bridge loop of `bring_up_vnet_interfaces`:
create the bridge when absent, ensure the iptables rule, set the link
up, and when sniffing is requested start tcpdump unless one runs. -/
def bridgeStep (sniffer : Bool) (ifname : String) (w : World) : Out :=
  (if check_if_interface_exists w ifname then Out.skip w
   else create_vnet_interface ifname w).andThen fun w1 =>
  (Out.step (create_vnet_interface_iptables_rules ifname w1)).andThen fun w2 =>
  (ipLinkSetUpByName ifname w2).andThen fun w3 =>
  if sniffer && !check_if_sniffer_exists w3 ifname then
    Out.step (start_tcpdump_on_vnet_interface ifname w3)
  else Out.skip w3

/-- The bridge loop of `bring_up_vnet_interfaces`. -/
def bridgeLoop (sniffer : Bool) (names : List String) (w : World) : Out :=
  match names with
  | [] => Out.skip w
  | n :: rest => (bridgeStep sniffer n w).andThen (bridgeLoop sniffer rest)

/-- The STP part of one veth iteration of `ensure_vnet_veth_interfaces`:
when the entry has `stp`, set `br_stp_state` on the entry's bridge
through NDB (which raises KeyError when the bridge is absent). -/
def stpStep (data : VethSpec) (w : World) : Out :=
  match data.stp with
  | none => Out.skip w
  | some b =>
    let tr0 := [Event.logInfo ((if b then "Enabling" else "Disabling") ++
      " STP on VNet interface " ++ data.bridge)]
    match linkLookup w data.bridge with
    | none => ⟨.error "KeyError", w, tr0⟩
    | some i => ⟨.ok (), setBrStpAt w i b, tr0 ++ [.setBrStp data.bridge b]⟩

/-- One veth iteration of `ensure_vnet_veth_interfaces`: STP on the
bridge first, then create the pair when absent, then always attach to
the master bridge and initialize (down, fresh MAC, up). -/
def vethStep (name : String) (data : VethSpec) (w : World) : Out :=
  (stpStep data w).andThen fun w1 =>
  (if check_if_interface_exists w1 name then Out.skip w1
   else Out.step (create_veth_interface name data w1)).andThen fun w2 =>
  (configure_veth_interface name data w2).andThen fun w3 =>
  configure_vnet_interface name w3

/-- The loop of `ensure_vnet_veth_interfaces`. -/
def vethLoop (veths : List (String × VethSpec)) (w : World) : Out :=
  match veths with
  | [] => Out.skip w
  | (n, d) :: rest => (vethStep n d w).andThen (vethLoop rest)

/-- `ensure_vnet_veth_interfaces` (assumes the veths config present). -/
def ensure_vnet_veth_interfaces (config : Config) (w : World) : Out :=
  let o := vethLoop (config.veths.getD []) w
  ⟨o.res, o.w, .logInfo "VNet veth config found, ensuring interfaces" :: o.tr⟩

/-- `bring_up_vnet_interfaces`: the bridge loop, then, when a veths
config is present, `ensure_vnet_veth_interfaces`. -/
def bring_up_vnet_interfaces (config : Config) (sniffer : Bool) (w : World) : Out :=
  (bridgeLoop sniffer (get_vnet_interface_names_from_config config) w).andThen fun w1 =>
  match config.veths with
  | some _ => ensure_vnet_veth_interfaces config w1
  | none => Out.skip w1

/-- One veth iteration of `bring_down_vnet_interfaces`: set the veth
down when it exists, silently skip it otherwise. -/
def vethDownStep (name : String) (w : World) : World × List Event :=
  if check_if_interface_exists w name then
    match linkLookup w name with
    | some i =>
      (setLinkStateAt w i false,
       [.logInfo ("Bringing down VNet veth interface " ++ name), .linkSetState name false])
    | none => (w, [])
  else (w, [])

/-- The veth loop of `bring_down_vnet_interfaces`. -/
def vethDownLoop (names : List String) (w : World) : World × List Event :=
  match names with
  | [] => (w, [])
  | n :: rest =>
    let p1 := vethDownStep n w
    let p2 := vethDownLoop rest p1.1
    (p2.1, p1.2 ++ p2.2)

/-- One bridge iteration of `bring_down_vnet_interfaces`: set the bridge
down when it exists, otherwise log a warning. -/
def bridgeDownStep (ifname : String) (w : World) : World × List Event :=
  if check_if_interface_exists w ifname then
    match linkLookup w ifname with
    | some i =>
      (setLinkStateAt w i false,
       [.logInfo ("Bringing down VNet interface " ++ ifname), .linkSetState ifname false])
    | none => (w, [])
  else
    (w, [.logWarning ("Tried to bring down VNet interface " ++ ifname ++
      ", but the interface does not exist")])

/-- The bridge loop of `bring_down_vnet_interfaces`. -/
def bridgeDownLoop (names : List String) (w : World) : World × List Event :=
  match names with
  | [] => (w, [])
  | n :: rest =>
    let p1 := bridgeDownStep n w
    let p2 := bridgeDownLoop rest p1.1
    (p2.1, p1.2 ++ p2.2)

/-- `bring_down_vnet_interfaces`: declared veths first (when a veths
config is present), then the switch bridges. -/
def bring_down_vnet_interfaces (config : Config) (w : World) : World × List Event :=
  let p1 :=
    match config.veths with
    | some vs => vethDownLoop (vs.map Prod.fst) w
    | none => (w, [])
  let p2 := bridgeDownLoop (get_vnet_interface_names_from_config config) p1.1
  (p2.1, p1.2 ++ p2.2)

/-- `ip.link("del", ifname=...)`: deleting one end of a veth pair also
removes its peer from the kernel link table. -/
def linkDelByName (w : World) (name : String) : World :=
  match w.links.find? (fun l => l.name == name) with
  | none => w
  | some l =>
    let gone : List String :=
      match l.kind, l.peer with
      | "veth", some p => [name, p]
      | _, _ => [name]
    { w with links := w.links.filter (fun l2 => !(gone.contains l2.name)) }

/-- One veth iteration of `delete_vnet_interfaces`: delete only entries
that have a `peer` and whose interface exists. -/
def vethDelStep (name : String) (data : VethSpec) (w : World) : World × List Event :=
  if data.peer.isSome && check_if_interface_exists w name then
    (linkDelByName w name,
     [.logInfo ("Deleting VNet veth interface " ++ name), .linkDel name])
  else (w, [])

/-- The veth loop of `delete_vnet_interfaces`. -/
def vethDelLoop (veths : List (String × VethSpec)) (w : World) : World × List Event :=
  match veths with
  | [] => (w, [])
  | (n, d) :: rest =>
    let p1 := vethDelStep n d w
    let p2 := vethDelLoop rest p1.1
    (p2.1, p1.2 ++ p2.2)

/-- One bridge iteration of `delete_vnet_interfaces`: delete when the
interface exists, otherwise log that it is already gone. -/
def bridgeDelStep (ifname : String) (w : World) : World × List Event :=
  if check_if_interface_exists w ifname then
    (linkDelByName w ifname,
     [.logInfo ("Deleting VNet interface " ++ ifname), .linkDel ifname])
  else
    (w, [.logInfo ("Tried to delete VNet interface " ++ ifname ++
      ", but it is already gone. That is okay")])

/-- The bridge loop of `delete_vnet_interfaces`. -/
def bridgeDelLoop (names : List String) (w : World) : World × List Event :=
  match names with
  | [] => (w, [])
  | n :: rest =>
    let p1 := bridgeDelStep n w
    let p2 := bridgeDelLoop rest p1.1
    (p2.1, p1.2 ++ p2.2)

/-- `delete_vnet_interfaces`: declared veths first (only pair-owning
entries), then the switch bridges. -/
def delete_vnet_interfaces (config : Config) (w : World) : World × List Event :=
  let p1 :=
    match config.veths with
    | some vs => vethDelLoop vs w
    | none => (w, [])
  let p2 := bridgeDelLoop (get_vnet_interface_names_from_config config) p1.1
  (p2.1, p1.2 ++ p2.2)

/-- Render an operational state as NDB reports it. -/
def stateStr (up : Bool) : String := if up then "up" else "down"

/-- Render a Python bool cell of the status table. -/
def boolStr (b : Bool) : String := if b then "True" else "False"

/-- One row of `show_vnet_interface_status`: all-NA when the bridge does
not exist, live state otherwise; the consumer list always comes from the
config. -/
def bridgeStatusRow (config : Config) (w : World) (ifname : String) : List String :=
  let usedBy := String.intercalate ", " (get_machines_by_vnet_interface_name config ifname)
  match w.links.find? (fun l => l.name == ifname) with
  | none => [ifname, "NA", "NA", "NA", "NA", usedBy]
  | some l =>
    [ifname, stateStr l.isUp, toString l.mac,
     boolStr (check_if_sniffer_exists w ifname), boolStr l.brStp, usedBy]

/-- `show_vnet_interface_status`: one row per switch bridge name. -/
def show_vnet_interface_status (config : Config) (w : World) : List (List String) :=
  (get_vnet_interface_names_from_config config).map (bridgeStatusRow config w)

/-- One row of `show_vnet_veth_interface_status`.  When the veth does not
exist the row is NA except the Master column, which the source fills with
the declared bridge from the config.  When it exists, the peer and master
names are resolved through further `ip.link("get", ...)` calls; a link
without the IFLA_LINK or IFLA_MASTER attribute makes the `[0]` indexing
raise IndexError. -/
def vethStatusRow (w : World) (name : String) (data : VethSpec) : Except String (List String) :=
  match w.links.find? (fun l => l.name == name) with
  | none => .ok [name, "NA", "NA", "NA", data.bridge]
  | some l =>
    match l.peer with
    | none => .error "IndexError: list index out of range"
    | some pname =>
      match l.master with
      | none => .error "IndexError: list index out of range"
      | some mname => .ok [name, stateStr l.isUp, toString l.mac, pname, mname]

/-- The row loop of `show_vnet_veth_interface_status`; the first raising
row aborts the report, as an uncaught exception would. -/
def vethStatusRows (w : World) (veths : List (String × VethSpec)) :
    Except String (List (List String)) :=
  match veths with
  | [] => .ok []
  | (n, d) :: rest =>
    match vethStatusRow w n d with
    | .error e => .error e
    | .ok r =>
      match vethStatusRows w rest with
      | .error e => .error e
      | .ok rs => .ok (r :: rs)

/-- `show_vnet_veth_interface_status` (assumes the veths config present). -/
def show_vnet_veth_interface_status (config : Config) (w : World) :
    Except String (List (List String)) :=
  vethStatusRows w (config.veths.getD [])

/-! ## Supporting lemmas -/

theorem Out.andThen_of_failed {o : Out} (h : o.failed = true) (k : World → Out) :
    o.andThen k = o := by
  unfold Out.andThen
  unfold Out.failed at h
  cases hres : o.res with
  | error e => simp [hres]
  | ok u => rw [hres] at h; simp at h

theorem Out.failed_andThen {o : Out} (h : o.failed = true) (k : World → Out) :
    (o.andThen k).failed = true := by
  rw [Out.andThen_of_failed h]; exact h

theorem Out.andThen_of_ok {o : Out} (h : o.res = .ok ()) (k : World → Out) :
    o.andThen k = ⟨(k o.w).res, (k o.w).w, o.tr ++ (k o.w).tr⟩ := by
  unfold Out.andThen
  rw [h]

theorem Out.skip_andThen (w : World) (k : World → Out) :
    (Out.skip w).andThen k = k w := by
  unfold Out.andThen Out.skip
  simp

theorem Out.step_andThen (p : World × List Event) (k : World → Out) :
    (Out.step p).andThen k = ⟨(k p.1).res, (k p.1).w, p.2 ++ (k p.1).tr⟩ := by
  unfold Out.andThen Out.step
  simp

theorem Out.res_of_not_failed {o : Out} (h : o.failed = false) : o.res = .ok () := by
  unfold Out.failed at h
  cases hres : o.res with
  | error e => rw [hres] at h; simp at h
  | ok u => cases u; rfl

theorem lookupIdx_nil (p : Link → Bool) : lookupIdx p [] = none := rfl

theorem lookupIdx_cons (p : Link → Bool) (l : Link) (rest : List Link) :
    lookupIdx p (l :: rest) =
      if p l then some 0 else (lookupIdx p rest).map (· + 1) := rfl

theorem lookupIdx_eq_none_iff (p : Link → Bool) (ls : List Link) :
    lookupIdx p ls = none ↔ ∀ l ∈ ls, p l = false := by
  induction ls with
  | nil => simp [lookupIdx]
  | cons l rest ih =>
    by_cases h : p l <;> simp [lookupIdx, h, ih]

theorem lookupIdx_append_of_none {p : Link → Bool} {ls : List Link}
    (h : lookupIdx p ls = none) (ms : List Link) :
    lookupIdx p (ls ++ ms) = (lookupIdx p ms).map (· + ls.length) := by
  induction ls with
  | nil => simp [lookupIdx]
  | cons l rest ih =>
    rw [lookupIdx_cons] at h
    by_cases hp : p l
    · simp [hp] at h
    · simp only [hp, if_false] at h
      have hrest : lookupIdx p rest = none := by
        cases hx : lookupIdx p rest <;> simp [hx] at h ⊢
      rw [List.cons_append, lookupIdx_cons]
      simp only [hp, if_false]
      rw [ih hrest]
      cases lookupIdx p ms with
      | none => simp
      | some j => simp [List.length_cons]; omega

theorem lookupIdx_append_left {p : Link → Bool} {ls : List Link} {i : Nat}
    (h : lookupIdx p ls = some i) (ms : List Link) :
    lookupIdx p (ls ++ ms) = some i := by
  induction ls generalizing i with
  | nil => simp [lookupIdx] at h
  | cons l rest ih =>
    rw [lookupIdx_cons] at h
    rw [List.cons_append, lookupIdx_cons]
    by_cases hp : p l
    · simp [hp] at h ⊢; exact h
    · simp only [hp, if_false] at h ⊢
      cases hx : lookupIdx p rest with
      | none => rw [hx] at h; simp at h
      | some j =>
        rw [hx] at h
        rw [ih hx]
        exact h

theorem lookupIdx_get {p : Link → Bool} {ls : List Link} {i : Nat}
    (h : lookupIdx p ls = some i) :
    ∃ l, ls.get? i = some l ∧ p l = true := by
  induction ls generalizing i with
  | nil => simp [lookupIdx] at h
  | cons l rest ih =>
    rw [lookupIdx_cons] at h
    by_cases hp : p l
    · simp [hp] at h
      exact ⟨l, by simp [← h], hp⟩
    · simp only [hp, if_false] at h
      cases hx : lookupIdx p rest with
      | none => rw [hx] at h; simp at h
      | some j =>
        rw [hx] at h
        simp at h
        obtain ⟨l2, hget, hpl2⟩ := ih hx
        exact ⟨l2, by rw [← h]; simpa using hget, hpl2⟩

theorem modifyAt_map_name (f : Link → Link) (hf : ∀ l, (f l).name = l.name)
    (ls : List Link) (i : Nat) :
    (modifyAt ls i f).map Link.name = ls.map Link.name := by
  induction ls generalizing i with
  | nil => rfl
  | cons l rest ih =>
    cases i with
    | zero => simp [modifyAt, hf]
    | succ j => simp [modifyAt, ih]

theorem modifyAt_of_fix {f : Link → Link} {ls : List Link} {i : Nat} {l : Link}
    (hget : ls.get? i = some l) (hfix : f l = l) :
    modifyAt ls i f = ls := by
  induction ls generalizing i with
  | nil => simp at hget
  | cons a rest ih =>
    cases i with
    | zero =>
      rw [List.get?_cons_zero] at hget
      injection hget with hget
      simp [modifyAt, hget ▸ hfix]
    | succ j =>
      rw [List.get?_cons_succ] at hget
      simp [modifyAt, ih hget]

theorem lookupIdx_nameIs_congr {ls ms : List Link}
    (h : ls.map Link.name = ms.map Link.name) (n : String) :
    lookupIdx (nameIs n) ls = lookupIdx (nameIs n) ms := by
  induction ls generalizing ms with
  | nil => cases ms <;> simp_all
  | cons l rest ih =>
    cases ms with
    | nil => simp at h
    | cons m mrest =>
      simp at h
      obtain ⟨h1, h2⟩ := h
      rw [lookupIdx_cons, lookupIdx_cons, ih h2]
      unfold nameIs
      rw [h1]

theorem linkLookup_eq_none_of_check_false {w : World} {n : String}
    (h : check_if_interface_exists w n = false) : linkLookup w n = none := by
  unfold check_if_interface_exists at h
  cases hx : linkLookup w n with
  | none => rfl
  | some i => rw [hx] at h; simp at h

theorem linkLookup_isSome_of_check_true {w : World} {n : String}
    (h : check_if_interface_exists w n = true) : ∃ i, linkLookup w n = some i := by
  unfold check_if_interface_exists at h
  cases hx : linkLookup w n with
  | none => rw [hx] at h; simp at h
  | some i => exact ⟨i, rfl⟩

theorem names_setLinkStateAt (w : World) (i : Nat) (b : Bool) :
    (setLinkStateAt w i b).links.map Link.name = w.links.map Link.name := by
  unfold setLinkStateAt
  exact modifyAt_map_name (fun l => { l with isUp := b }) (fun _ => rfl) _ _

theorem names_setLinkAddressAt (w : World) (i : Nat) (mac : Nat) :
    (setLinkAddressAt w i mac).links.map Link.name = w.links.map Link.name := by
  unfold setLinkAddressAt
  exact modifyAt_map_name (fun l => { l with mac := mac }) (fun _ => rfl) _ _

theorem names_setLinkMasterAt (w : World) (i : Nat) (m : String) :
    (setLinkMasterAt w i m).links.map Link.name = w.links.map Link.name := by
  unfold setLinkMasterAt
  exact modifyAt_map_name (fun l => { l with master := some m }) (fun _ => rfl) _ _

theorem names_setBrStpAt (w : World) (i : Nat) (b : Bool) :
    (setBrStpAt w i b).links.map Link.name = w.links.map Link.name := by
  unfold setBrStpAt
  exact modifyAt_map_name (fun l => { l with brStp := b }) (fun _ => rfl) _ _

theorem linkLookup_congr {w w' : World}
    (h : w.links.map Link.name = w'.links.map Link.name) (n : String) :
    linkLookup w n = linkLookup w' n :=
  lookupIdx_nameIs_congr h n

theorem check_congr {w w' : World}
    (h : w.links.map Link.name = w'.links.map Link.name) (n : String) :
    check_if_interface_exists w n = check_if_interface_exists w' n := by
  unfold check_if_interface_exists
  rw [linkLookup_congr h]

theorem Out.failed_andThen_ok {o : Out} (h : o.res = .ok ()) (k : World → Out) :
    (o.andThen k).failed = (k o.w).failed := by
  rw [Out.andThen_of_ok h]
  rfl

/-- `configure_veth_interface` raises when the target bridge is absent. -/
theorem configure_veth_failed_of_bridge_missing {name : String} {data : VethSpec} {w : World}
    (hb : linkLookup w data.bridge = none) :
    (configure_veth_interface name data w).failed = true := by
  unfold configure_veth_interface
  cases hn : linkLookup w name with
  | none => rfl
  | some i => simp [hn, hb, Out.failed]

/-- `configure_veth_interface` raises when the veth itself is absent. -/
theorem configure_veth_failed_of_name_missing {name : String} {data : VethSpec} {w : World}
    (hn : linkLookup w name = none) :
    (configure_veth_interface name data w).failed = true := by
  unfold configure_veth_interface
  simp [hn, Out.failed]

/-- Once one item of the veth loop raises, the loop output is that item's
output: later entries are never processed. -/
theorem vethLoop_cons_of_failed {n : String} {d : VethSpec}
    {rest : List (String × VethSpec)} {w : World}
    (h : (vethStep n d w).failed = true) :
    vethLoop ((n, d) :: rest) w = vethStep n d w := by
  unfold vethLoop
  exact Out.andThen_of_failed h _

/-- Attaching to a bridge that does not exist (and that the step itself
cannot have just created) makes the veth step raise, whichever of the
stp/create paths is taken. -/
theorem vethStep_failed_of_bridge_missing {name : String} {data : VethSpec} {w : World}
    (hb : check_if_interface_exists w data.bridge = false)
    (hbn : data.bridge ≠ name)
    (hbp : ∀ p, data.peer = some p → data.bridge ≠ p) :
    (vethStep name data w).failed = true := by
  have hbl : linkLookup w data.bridge = none := linkLookup_eq_none_of_check_false hb
  unfold vethStep
  cases hstp : data.stp with
  | some b =>
    have hfail : (stpStep data w).failed = true := by
      unfold stpStep
      simp [hstp, hbl, Out.failed]
    exact Out.failed_andThen hfail _
  | none =>
    have hok : stpStep data w = Out.skip w := by
      unfold stpStep
      rw [hstp]
    rw [hok, Out.skip_andThen]
    by_cases hex : check_if_interface_exists w name = true
    · rw [if_pos hex, Out.skip_andThen]
      have hcf : (configure_veth_interface name data w).failed = true :=
        configure_veth_failed_of_bridge_missing hbl
      exact Out.failed_andThen hcf _
    · rw [if_neg hex]
      have hexf : check_if_interface_exists w name = false := by
        cases hx : check_if_interface_exists w name with
        | false => rfl
        | true => exact absurd hx hex
      cases hpeer : data.peer with
      | none =>
        have hcr : create_veth_interface name data w = (w, []) := by
          unfold create_veth_interface
          rw [hpeer]
        rw [hcr]
        have hstep : Out.step ((w : World), ([] : List Event)) = Out.skip w := rfl
        rw [hstep, Out.skip_andThen]
        have hnl : linkLookup w name = none := linkLookup_eq_none_of_check_false hexf
        have hcf : (configure_veth_interface name data w).failed = true :=
          configure_veth_failed_of_name_missing hnl
        exact Out.failed_andThen hcf _
      | some p =>
        have hcr : create_veth_interface name data w =
            ({ w with links := w.links ++
                [⟨name, "veth", false, 0, none, some p, false⟩,
                 ⟨p, "veth", false, 0, none, some name, false⟩] },
             [.linkAdd name "veth" (some p)]) := by
          unfold create_veth_interface
          rw [hpeer]
        rw [hcr, Out.step_andThen]
        have hb2 : linkLookup
            { w with links := w.links ++
                [⟨name, "veth", false, 0, none, some p, false⟩,
                 ⟨p, "veth", false, 0, none, some name, false⟩] } data.bridge = none := by
          unfold linkLookup at hbl ⊢
          rw [lookupIdx_append_of_none hbl]
          have h1 : nameIs data.bridge ⟨name, "veth", false, 0, none, some p, false⟩ = false := by
            unfold nameIs
            exact beq_eq_false_iff_ne.mpr (Ne.symm hbn)
          have h2 : nameIs data.bridge ⟨p, "veth", false, 0, none, some name, false⟩ = false := by
            unfold nameIs
            exact beq_eq_false_iff_ne.mpr (Ne.symm (hbp p hpeer))
          simp [lookupIdx_cons, lookupIdx_nil, h1, h2]
        have hcf : (configure_veth_interface name data _).failed = true :=
          configure_veth_failed_of_bridge_missing hb2
        exact Out.failed_andThen hcf _

/-- `configure_vnet_interface` completes when the interface exists. -/
theorem configure_vnet_ok_of_exists {ifname : String} {w : World}
    (h : check_if_interface_exists w ifname = true) :
    (configure_vnet_interface ifname w).failed = false := by
  obtain ⟨i, hi⟩ := linkLookup_isSome_of_check_true h
  unfold configure_vnet_interface
  rw [hi]
  rfl

/-- `configure_vnet_interface` raises when the interface is absent. -/
theorem configure_vnet_failed_of_missing {ifname : String} {w : World}
    (h : check_if_interface_exists w ifname = false) :
    (configure_vnet_interface ifname w).failed = true := by
  have hl := linkLookup_eq_none_of_check_false h
  unfold configure_vnet_interface
  rw [hl]
  rfl

/-- `configure_veth_interface` completes when both the veth and its
bridge exist. -/
theorem configure_veth_ok_of_exists {name : String} {data : VethSpec} {w : World}
    (h1 : check_if_interface_exists w name = true)
    (h2 : check_if_interface_exists w data.bridge = true) :
    (configure_veth_interface name data w).failed = false := by
  obtain ⟨i, hi⟩ := linkLookup_isSome_of_check_true h1
  obtain ⟨j, hj⟩ := linkLookup_isSome_of_check_true h2
  unfold configure_veth_interface
  rw [hi, hj]
  rfl

/-- A veth entry without a peer whose interface is absent makes the step
raise (the pair is never created, so the unguarded indexing of the name
lookup raises), whatever the STP setting does first. -/
theorem vethStep_failed_of_peerless_absent {name : String} {data : VethSpec} {w : World}
    (hp : data.peer = none) (hn : check_if_interface_exists w name = false) :
    (vethStep name data w).failed = true := by
  have tail : ∀ w1 : World, check_if_interface_exists w1 name = false →
      ((if check_if_interface_exists w1 name then Out.skip w1
        else Out.step (create_veth_interface name data w1)).andThen fun w2 =>
        (configure_veth_interface name data w2).andThen fun w3 =>
          configure_vnet_interface name w3).failed = true := by
    intro w1 h1
    rw [if_neg (by rw [h1]; exact Bool.false_ne_true)]
    have hcr : create_veth_interface name data w1 = (w1, []) := by
      unfold create_veth_interface
      rw [hp]
    rw [hcr]
    have hstep : Out.step ((w1 : World), ([] : List Event)) = Out.skip w1 := rfl
    rw [hstep, Out.skip_andThen]
    have hnl : linkLookup w1 name = none := linkLookup_eq_none_of_check_false h1
    exact Out.failed_andThen (configure_veth_failed_of_name_missing hnl) _
  unfold vethStep
  cases hstp : data.stp with
  | none =>
    have hok : stpStep data w = Out.skip w := by
      unfold stpStep
      rw [hstp]
    rw [hok, Out.skip_andThen]
    exact tail w hn
  | some b =>
    cases hbl : linkLookup w data.bridge with
    | none =>
      have hfail : (stpStep data w).failed = true := by
        unfold stpStep
        simp [hstp, hbl, Out.failed]
      exact Out.failed_andThen hfail _
    | some i =>
      have hsp : stpStep data w =
          ⟨.ok (), setBrStpAt w i b,
            [Event.logInfo ((if b then "Enabling" else "Disabling") ++
              " STP on VNet interface " ++ data.bridge), Event.setBrStp data.bridge b]⟩ := by
        unfold stpStep
        rw [hstp, hbl]
        rfl
      rw [hsp, Out.andThen_of_ok rfl]
      have h1 : check_if_interface_exists (setBrStpAt w i b) name = false :=
        (check_congr (names_setBrStpAt w i b) name).trans hn
      exact tail _ h1

theorem Out.step_tr (p : World × List Event) : (Out.step p).tr = p.2 := rfl

theorem Out.mem_andThen {o : Out} {k : World → Out} {e : Event}
    (h : e ∈ (o.andThen k).tr) : e ∈ o.tr ∨ e ∈ (k o.w).tr := by
  unfold Out.andThen at h
  cases hres : o.res with
  | error err => rw [hres] at h; exact Or.inl h
  | ok u =>
    rw [hres] at h
    simp only [List.mem_append] at h
    exact h

theorem Out.mem_andThen_left {o : Out} {k : World → Out} {e : Event}
    (h : e ∈ o.tr) : e ∈ (o.andThen k).tr := by
  unfold Out.andThen
  cases hres : o.res with
  | error err => exact h
  | ok u => simp only [List.mem_append]; exact Or.inl h

theorem Out.mem_andThen_right {o : Out} {k : World → Out} {e : Event}
    (hok : o.res = .ok ()) (h : e ∈ (k o.w).tr) : e ∈ (o.andThen k).tr := by
  rw [Out.andThen_of_ok hok]
  simp only [List.mem_append]
  exact Or.inr h

/-- Events of `configure_vnet_interface`: state changes and the address
assignment on the named interface only. -/
theorem configure_vnet_tr {ifname : String} {w : World} {e : Event}
    (h : e ∈ (configure_vnet_interface ifname w).tr) :
    (∃ b, e = .linkSetState ifname b) ∨ (∃ m, e = .linkSetAddress ifname m) := by
  unfold configure_vnet_interface at h
  cases hl : linkLookup w ifname with
  | none => rw [hl] at h; simp at h
  | some i =>
    rw [hl] at h
    simp at h
    rcases h with h | h | h
    · exact Or.inl ⟨false, h⟩
    · exact Or.inr ⟨_, h⟩
    · exact Or.inl ⟨true, h⟩

/-- Events of `configure_veth_interface`: a log line and the master
assignment on the named veth only. -/
theorem configure_veth_tr {name : String} {data : VethSpec} {w : World} {e : Event}
    (h : e ∈ (configure_veth_interface name data w).tr) :
    (∃ m, e = .logInfo m) ∨ e = .linkSetMaster name data.bridge := by
  unfold configure_veth_interface at h
  cases hl : linkLookup w name with
  | none => rw [hl] at h; simp at h; exact Or.inl ⟨_, h⟩
  | some i =>
    rw [hl] at h
    cases hb : linkLookup w data.bridge with
    | none => rw [hb] at h; simp at h; exact Or.inl ⟨_, h⟩
    | some j =>
      rw [hb] at h
      simp at h
      rcases h with h | h
      · exact Or.inl ⟨_, h⟩
      · exact Or.inr h

/-- Events of `stpStep`: a log line and the STP flag on the entry's
bridge only. -/
theorem stpStep_tr {data : VethSpec} {w : World} {e : Event}
    (h : e ∈ (stpStep data w).tr) :
    (∃ m, e = .logInfo m) ∨ (∃ b, data.stp = some b ∧ e = .setBrStp data.bridge b) := by
  unfold stpStep at h
  cases hstp : data.stp with
  | none => rw [hstp] at h; simp [Out.skip] at h
  | some b =>
    rw [hstp] at h
    cases hl : linkLookup w data.bridge with
    | none => rw [hl] at h; simp at h; exact Or.inl ⟨_, h⟩
    | some i =>
      rw [hl] at h
      simp at h
      rcases h with h | h
      · exact Or.inl ⟨_, h⟩
      · exact Or.inr ⟨b, rfl, h⟩

/-- Events of `create_veth_interface`: only the pair creation naming the
entry and its declared peer, and only when a peer is declared. -/
theorem create_veth_tr {name : String} {data : VethSpec} {w : World} {e : Event}
    (h : e ∈ (create_veth_interface name data w).2) :
    ∃ p, data.peer = some p ∧ e = .linkAdd name "veth" (some p) := by
  unfold create_veth_interface at h
  cases hp : data.peer with
  | none => rw [hp] at h; simp at h
  | some p =>
    rw [hp] at h
    simp at h
    exact ⟨p, rfl, h⟩

/-- Events of `create_vnet_interface`: a log line, the bridge-kind link
creation, and configure events on the named bridge. -/
theorem create_vnet_tr {ifname : String} {w : World} {e : Event}
    (h : e ∈ (create_vnet_interface ifname w).tr) :
    (∃ m, e = .logInfo m) ∨ e = .linkAdd ifname "bridge" none ∨
    (∃ b, e = .linkSetState ifname b) ∨ (∃ m, e = .linkSetAddress ifname m) := by
  unfold create_vnet_interface at h
  simp at h
  rcases h with h | h | h
  · exact Or.inl ⟨_, h⟩
  · exact Or.inr (Or.inl h)
  · rcases configure_vnet_tr h with h | h
    · exact Or.inr (Or.inr (Or.inl h))
    · exact Or.inr (Or.inr (Or.inr h))

/-- Events of the iptables rule routine are never kernel link calls. -/
theorem iptables_tr {ifname : String} {w : World} {e : Event}
    (h : e ∈ (create_vnet_interface_iptables_rules ifname w).2) :
    e.isMutatingKernelCall = false := by
  unfold create_vnet_interface_iptables_rules at h
  by_cases h1 : w.rules.contains (iptablesRuleFor ifname)
  · rw [if_pos h1] at h
    simp at h
    rcases h with h | h <;> subst h <;> rfl
  · rw [if_neg h1] at h
    by_cases h2 : w.iptablesFail.contains (iptablesRuleFor ifname)
    · rw [if_pos h2] at h
      simp at h
      rcases h with h | h | h | h <;> subst h <;> rfl
    · rw [if_neg h2] at h
      simp at h
      rcases h with h | h | h <;> subst h <;> rfl

/-- Events of `start_tcpdump_on_vnet_interface` are never kernel link
calls. -/
theorem tcpdump_tr {ifname : String} {w : World} {e : Event}
    (h : e ∈ (start_tcpdump_on_vnet_interface ifname w).2) :
    e.isMutatingKernelCall = false := by
  unfold start_tcpdump_on_vnet_interface at h
  simp at h
  rcases h with h | h <;> subst h <;> rfl

/-- Events of `ipLinkSetUpByName`: at most the set-up call on the named
interface. -/
theorem setUpByName_tr {ifname : String} {w : World} {e : Event}
    (h : e ∈ (ipLinkSetUpByName ifname w).tr) :
    e = .linkSetState ifname true := by
  unfold ipLinkSetUpByName at h
  cases hl : linkLookup w ifname with
  | none => rw [hl] at h; simp at h
  | some i => rw [hl] at h; simp at h; exact h

/-- The tail of one bridge step (iptables, set-up, sniffer) records no
link creation. -/
theorem bridgeStep_tail_no_linkAdd {sniffer : Bool} {ifname : String} {w1 : World}
    {n k : String} {pe : Option String}
    (h : Event.linkAdd n k pe ∈
      ((Out.step (create_vnet_interface_iptables_rules ifname w1)).andThen fun w2 =>
        (ipLinkSetUpByName ifname w2).andThen fun w3 =>
        if sniffer && !check_if_sniffer_exists w3 ifname then
          Out.step (start_tcpdump_on_vnet_interface ifname w3)
        else Out.skip w3).tr) :
    False := by
  rcases Out.mem_andThen h with h | h
  · exact absurd (iptables_tr h) (by simp [Event.isMutatingKernelCall])
  · rcases Out.mem_andThen h with h | h
    · exact absurd (setUpByName_tr h) (by simp)
    · split at h
      · rw [Out.step_tr] at h
        exact absurd (tcpdump_tr h) (by simp [Event.isMutatingKernelCall])
      · simp [Out.skip] at h

/-- Any link creation recorded by the bridge phase of bring-up has kind
"bridge". -/
theorem bridgeStep_linkAdd {sniffer : Bool} {ifname : String} {w : World}
    {n k : String} {pe : Option String}
    (h : Event.linkAdd n k pe ∈ (bridgeStep sniffer ifname w).tr) :
    k = "bridge" := by
  unfold bridgeStep at h
  split at h
  · rcases Out.mem_andThen h with h | h
    · simp [Out.skip] at h
    · exact (bridgeStep_tail_no_linkAdd h).elim
  · rcases Out.mem_andThen h with h | h
    · rcases create_vnet_tr h with ⟨m, hm⟩ | hm | ⟨b, hm⟩ | ⟨m, hm⟩ <;> simp at hm
      exact hm.2.1
    · exact (bridgeStep_tail_no_linkAdd h).elim

theorem bridgeLoop_linkAdd {sniffer : Bool} {names : List String} {w : World}
    {n k : String} {pe : Option String}
    (h : Event.linkAdd n k pe ∈ (bridgeLoop sniffer names w).tr) :
    k = "bridge" := by
  induction names generalizing w with
  | nil => simp [bridgeLoop, Out.skip] at h
  | cons nm rest ih =>
    unfold bridgeLoop at h
    rcases Out.mem_andThen h with h | h
    · exact bridgeStep_linkAdd h
    · exact ih h

/-- The tail of one veth step (attach, initialize) records no link
creation. -/
theorem vethStep_tail_no_linkAdd {name : String} {data : VethSpec} {w2 : World}
    {n k : String} {pe : Option String}
    (h : Event.linkAdd n k pe ∈
      ((configure_veth_interface name data w2).andThen fun w3 =>
        configure_vnet_interface name w3).tr) :
    False := by
  rcases Out.mem_andThen h with h | h
  · rcases configure_veth_tr h with ⟨m, hm⟩ | hm <;> simp at hm
  · rcases configure_vnet_tr h with ⟨b, hm⟩ | ⟨m, hm⟩ <;> simp at hm

/-- Any link creation recorded by one veth step names the step's entry,
has kind "veth" and carries the entry's declared peer. -/
theorem vethStep_linkAdd {name : String} {data : VethSpec} {w : World}
    {n k : String} {pe : Option String}
    (h : Event.linkAdd n k pe ∈ (vethStep name data w).tr) :
    n = name ∧ k = "veth" ∧ ∃ p, data.peer = some p ∧ pe = some p := by
  unfold vethStep at h
  rcases Out.mem_andThen h with h | h
  · rcases stpStep_tr h with ⟨m, hm⟩ | ⟨b, _, hm⟩ <;> simp at hm
  · split at h
    · rcases Out.mem_andThen h with h | h
      · simp [Out.skip] at h
      · exact (vethStep_tail_no_linkAdd h).elim
    · rcases Out.mem_andThen h with h | h
      · rcases create_veth_tr h with ⟨p, hp, he⟩
        injection he with e1 e2 e3
        exact ⟨e1, e2, p, hp, e3⟩
      · exact (vethStep_tail_no_linkAdd h).elim

theorem vethLoop_linkAdd {vs : List (String × VethSpec)} {w : World}
    {n k : String} {pe : Option String}
    (h : Event.linkAdd n k pe ∈ (vethLoop vs w).tr) :
    ∃ d p, (n, d) ∈ vs ∧ d.peer = some p ∧ k = "veth" ∧ pe = some p := by
  induction vs generalizing w with
  | nil => simp [vethLoop, Out.skip] at h
  | cons nd rest ih =>
    unfold vethLoop at h
    rcases Out.mem_andThen h with h | h
    · obtain ⟨h1, h2, p, hp, hpe⟩ := vethStep_linkAdd h
      exact ⟨nd.2, p, by rw [h1]; exact List.mem_cons_self _ _, hp, h2, hpe⟩
    · obtain ⟨d, p, hmem, hp, hk, hpe⟩ := ih h
      exact ⟨d, p, List.mem_cons_of_mem _ hmem, hp, hk, hpe⟩

/-- Events of one veth delete iteration: a log line, or the deletion of
the entry's interface, the latter only when the entry declares a peer. -/
theorem vethDelStep_tr {name : String} {data : VethSpec} {w : World} {e : Event}
    (h : e ∈ (vethDelStep name data w).2) :
    (∃ m, e = .logInfo m) ∨ (e = .linkDel name ∧ data.peer ≠ none) := by
  unfold vethDelStep at h
  by_cases hc : (data.peer.isSome && check_if_interface_exists w name) = true
  · rw [if_pos hc] at h
    simp at h
    rcases h with h | h
    · exact Or.inl ⟨_, h⟩
    · refine Or.inr ⟨h, ?_⟩
      intro hp
      rw [hp] at hc
      simp at hc
  · rw [if_neg hc] at h
    simp at h

theorem vethDelLoop_cons_snd (n : String) (d : VethSpec)
    (rest : List (String × VethSpec)) (w : World) :
    (vethDelLoop ((n, d) :: rest) w).2 =
      (vethDelStep n d w).2 ++ (vethDelLoop rest (vethDelStep n d w).1).2 := rfl

theorem vethDelLoop_cons_fst (n : String) (d : VethSpec)
    (rest : List (String × VethSpec)) (w : World) :
    (vethDelLoop ((n, d) :: rest) w).1 = (vethDelLoop rest (vethDelStep n d w).1).1 := rfl

theorem bridgeDelLoop_cons_snd (n : String) (rest : List String) (w : World) :
    (bridgeDelLoop (n :: rest) w).2 =
      (bridgeDelStep n w).2 ++ (bridgeDelLoop rest (bridgeDelStep n w).1).2 := rfl

theorem bridgeDelLoop_cons_fst (n : String) (rest : List String) (w : World) :
    (bridgeDelLoop (n :: rest) w).1 = (bridgeDelLoop rest (bridgeDelStep n w).1).1 := rfl

theorem vethDownLoop_cons_snd (n : String) (rest : List String) (w : World) :
    (vethDownLoop (n :: rest) w).2 =
      (vethDownStep n w).2 ++ (vethDownLoop rest (vethDownStep n w).1).2 := rfl

theorem vethDownLoop_cons_fst (n : String) (rest : List String) (w : World) :
    (vethDownLoop (n :: rest) w).1 = (vethDownLoop rest (vethDownStep n w).1).1 := rfl

theorem bridgeDownLoop_cons_snd (n : String) (rest : List String) (w : World) :
    (bridgeDownLoop (n :: rest) w).2 =
      (bridgeDownStep n w).2 ++ (bridgeDownLoop rest (bridgeDownStep n w).1).2 := rfl

theorem bridgeDownLoop_cons_fst (n : String) (rest : List String) (w : World) :
    (bridgeDownLoop (n :: rest) w).1 = (bridgeDownLoop rest (bridgeDownStep n w).1).1 := rfl

theorem vethDelLoop_linkDel {vs : List (String × VethSpec)} {w : World} {n : String}
    (h : Event.linkDel n ∈ (vethDelLoop vs w).2) :
    ∃ d, (n, d) ∈ vs ∧ d.peer ≠ none := by
  induction vs generalizing w with
  | nil => simp [vethDelLoop] at h
  | cons nd rest ih =>
    rcases nd with ⟨nm, d⟩
    rw [vethDelLoop_cons_snd] at h
    rcases List.mem_append.mp h with h | h
    · rcases vethDelStep_tr h with ⟨m, hm⟩ | ⟨he, hp⟩
      · simp at hm
      · injection he with he
        exact ⟨d, by rw [he]; exact List.mem_cons_self _ _, hp⟩
    · obtain ⟨d2, hd, hp⟩ := ih h
      exact ⟨d2, List.mem_cons_of_mem _ hd, hp⟩

/-- Events of one bridge delete iteration: a log line or the deletion of
the named bridge. -/
theorem bridgeDelStep_tr {ifname : String} {w : World} {e : Event}
    (h : e ∈ (bridgeDelStep ifname w).2) :
    (∃ m, e = .logInfo m) ∨ e = .linkDel ifname := by
  unfold bridgeDelStep at h
  by_cases hc : check_if_interface_exists w ifname = true
  · rw [if_pos hc] at h
    simp at h
    rcases h with h | h
    · exact Or.inl ⟨_, h⟩
    · exact Or.inr h
  · rw [if_neg hc] at h
    simp at h
    exact Or.inl ⟨_, h⟩

theorem bridgeDelLoop_linkDel {names : List String} {w : World} {n : String}
    (h : Event.linkDel n ∈ (bridgeDelLoop names w).2) :
    n ∈ names := by
  induction names generalizing w with
  | nil => simp [bridgeDelLoop] at h
  | cons nm rest ih =>
    rw [bridgeDelLoop_cons_snd] at h
    rcases List.mem_append.mp h with h | h
    · rcases bridgeDelStep_tr h with ⟨m, hm⟩ | he
      · simp at hm
      · injection he with he
        rw [he]
        exact List.mem_cons_self _ _
    · exact List.mem_cons_of_mem _ (ih h)

/-- In a mapping with distinct keys (a Python dict), a key determines its
entry. -/
theorem veths_assoc_unique {vs : List (String × VethSpec)}
    (hnd : (vs.map Prod.fst).Nodup) {n : String} {d1 d2 : VethSpec}
    (h1 : (n, d1) ∈ vs) (h2 : (n, d2) ∈ vs) : d1 = d2 := by
  induction vs with
  | nil => simp at h1
  | cons a rest ih =>
    simp only [List.map_cons, List.nodup_cons] at hnd
    obtain ⟨hna, hrest⟩ := hnd
    rcases List.mem_cons.mp h1 with h1 | h1 <;> rcases List.mem_cons.mp h2 with h2 | h2
    · rw [← h1] at h2
      injection h2 with _ h2
      exact h2.symm
    · rw [← h1] at hna
      exact absurd (List.mem_map_of_mem Prod.fst h2) hna
    · rw [← h2] at hna
      exact absurd (List.mem_map_of_mem Prod.fst h1) hna
    · exact ih hrest h1 h2

/-- Splitting the bring-up trace into its bridge phase and veth phase. -/
theorem ensure_tr_mem {cfg : Config} {vs : List (String × VethSpec)} {w : World} {e : Event}
    (hv : cfg.veths = some vs)
    (h : e ∈ (ensure_vnet_veth_interfaces cfg w).tr) :
    e = .logInfo "VNet veth config found, ensuring interfaces" ∨ e ∈ (vethLoop vs w).tr := by
  unfold ensure_vnet_veth_interfaces at h
  rw [hv] at h
  simp at h
  exact h

theorem bring_up_tr_mem {cfg : Config} {vs : List (String × VethSpec)}
    {sniffer : Bool} {w : World} {e : Event}
    (hv : cfg.veths = some vs)
    (h : e ∈ (bring_up_vnet_interfaces cfg sniffer w).tr) :
    e ∈ (bridgeLoop sniffer (get_vnet_interface_names_from_config cfg) w).tr ∨
    e = .logInfo "VNet veth config found, ensuring interfaces" ∨
    e ∈ (vethLoop vs
      (bridgeLoop sniffer (get_vnet_interface_names_from_config cfg) w).w).tr := by
  unfold bring_up_vnet_interfaces at h
  rcases Out.mem_andThen h with h | h
  · exact Or.inl h
  · rw [hv] at h
    exact Or.inr (ensure_tr_mem hv h)

/-- Splitting the delete pass into its veth phase and bridge phase. -/
theorem delete_snd_eq {cfg : Config} {vs : List (String × VethSpec)} (w : World)
    (hv : cfg.veths = some vs) :
    (delete_vnet_interfaces cfg w).2 =
      (vethDelLoop vs w).2 ++
      (bridgeDelLoop (get_vnet_interface_names_from_config cfg)
        (vethDelLoop vs w).1).2 := by
  unfold delete_vnet_interfaces
  rw [hv]

theorem delete_tr_mem {cfg : Config} {vs : List (String × VethSpec)} {w : World} {e : Event}
    (hv : cfg.veths = some vs)
    (h : e ∈ (delete_vnet_interfaces cfg w).2) :
    e ∈ (vethDelLoop vs w).2 ∨
    e ∈ (bridgeDelLoop (get_vnet_interface_names_from_config cfg)
          (vethDelLoop vs w).1).2 := by
  rw [delete_snd_eq w hv] at h
  exact List.mem_append.mp h

/-- A veth entry with a declared peer whose interface is absent has the
pair creation in its step's trace (provided the STP setting, which runs
first, does not abort). -/
theorem vethStep_creates {name : String} {data : VethSpec} {w : World} {p : String}
    (hp : data.peer = some p)
    (hn : check_if_interface_exists w name = false)
    (hb : data.stp = none ∨ check_if_interface_exists w data.bridge = true) :
    Event.linkAdd name "veth" (some p) ∈ (vethStep name data w).tr := by
  have key : ∀ w1 : World, check_if_interface_exists w1 name = false →
      Event.linkAdd name "veth" (some p) ∈
        ((if check_if_interface_exists w1 name then Out.skip w1
          else Out.step (create_veth_interface name data w1)).andThen fun w2 =>
          (configure_veth_interface name data w2).andThen fun w3 =>
            configure_vnet_interface name w3).tr := by
    intro w1 h1
    rw [if_neg (by rw [h1]; exact Bool.false_ne_true)]
    apply Out.mem_andThen_left
    rw [Out.step_tr]
    unfold create_veth_interface
    rw [hp]
    simp
  unfold vethStep
  cases hstp : data.stp with
  | none =>
    have hok : stpStep data w = Out.skip w := by
      unfold stpStep
      rw [hstp]
    rw [hok, Out.skip_andThen]
    exact key w hn
  | some b =>
    rcases hb with hb | hb
    · rw [hstp] at hb
      simp at hb
    · obtain ⟨i, hi⟩ := linkLookup_isSome_of_check_true hb
      have hsp : stpStep data w =
          ⟨.ok (), setBrStpAt w i b,
            [Event.logInfo ((if b then "Enabling" else "Disabling") ++
              " STP on VNet interface " ++ data.bridge), Event.setBrStp data.bridge b]⟩ := by
        unfold stpStep
        rw [hstp, hi]
        rfl
      rw [hsp, Out.andThen_of_ok rfl]
      have h1 : check_if_interface_exists (setBrStpAt w i b) name = false :=
        (check_congr (names_setBrStpAt w i b) name).trans hn
      exact List.mem_append_right _ (key _ h1)

/-- A veth entry with a declared peer whose interface is present has the
deletion in its delete-step trace. -/
theorem vethDelStep_deletes {name : String} {data : VethSpec} {w : World}
    (hp : data.peer ≠ none)
    (hex : check_if_interface_exists w name = true) :
    Event.linkDel name ∈ (vethDelStep name data w).2 := by
  have h1 : data.peer.isSome = true := by
    cases hpp : data.peer with
    | none => exact absurd hpp hp
    | some q => rfl
  unfold vethDelStep
  rw [if_pos (by rw [h1, hex]; rfl)]
  simp

/-- Success equation for the attach-then-initialize tail of one veth
step: both lookups succeeding, it returns normally and records exactly
the attach log, the master assignment, and the down/fresh-MAC/up
initialization. -/
theorem attach_init_res_tr {name : String} {data : VethSpec} {w2 : World} {i j : Nat}
    (hi : linkLookup w2 name = some i) (hj : linkLookup w2 data.bridge = some j) :
    ((configure_veth_interface name data w2).andThen fun w3 =>
      configure_vnet_interface name w3).res = .ok () ∧
    ((configure_veth_interface name data w2).andThen fun w3 =>
      configure_vnet_interface name w3).tr =
      [Event.logInfo ("Creating VNet veth interface " ++ name),
       Event.linkSetMaster name data.bridge,
       Event.linkSetState name false, Event.linkSetAddress name w2.macCtr,
       Event.linkSetState name true] := by
  have hveq : configure_veth_interface name data w2 =
      ⟨.ok (), setLinkMasterAt w2 i data.bridge,
        [Event.logInfo ("Creating VNet veth interface " ++ name),
         Event.linkSetMaster name data.bridge]⟩ := by
    unfold configure_veth_interface
    rw [hi, hj]
    rfl
  rw [hveq, Out.andThen_of_ok rfl]
  have hl3 : linkLookup (setLinkMasterAt w2 i data.bridge) name = some i := by
    rw [linkLookup_congr (names_setLinkMasterAt w2 i data.bridge) name]
    exact hi
  have hcv : configure_vnet_interface name (setLinkMasterAt w2 i data.bridge) =
      ⟨.ok (),
        setLinkStateAt
          (setLinkAddressAt
            { setLinkStateAt (setLinkMasterAt w2 i data.bridge) i false with
                macCtr := w2.macCtr + 1 } i w2.macCtr) i true,
        [Event.linkSetState name false, Event.linkSetAddress name w2.macCtr,
         Event.linkSetState name true]⟩ := by
    unfold configure_vnet_interface
    rw [hl3]
    rfl
  rw [hcv]
  exact ⟨rfl, rfl⟩

/-- Success equation for one veth step from the existence check onward:
create when absent (a peer being declared), then attach, then
initialize. -/
theorem vethStep_tail_trace {name : String} {data : VethSpec} {w1 : World} {j : Nat}
    (hj : linkLookup w1 data.bridge = some j)
    (hx : check_if_interface_exists w1 name = true ∨ data.peer ≠ none) :
    ((if check_if_interface_exists w1 name then Out.skip w1
      else Out.step (create_veth_interface name data w1)).andThen fun w2 =>
      (configure_veth_interface name data w2).andThen fun w3 =>
        configure_vnet_interface name w3).res = .ok () ∧
    ((if check_if_interface_exists w1 name then Out.skip w1
      else Out.step (create_veth_interface name data w1)).andThen fun w2 =>
      (configure_veth_interface name data w2).andThen fun w3 =>
        configure_vnet_interface name w3).tr =
      (if check_if_interface_exists w1 name then []
       else [Event.linkAdd name "veth" data.peer]) ++
      [Event.logInfo ("Creating VNet veth interface " ++ name),
       Event.linkSetMaster name data.bridge,
       Event.linkSetState name false, Event.linkSetAddress name w1.macCtr,
       Event.linkSetState name true] := by
  by_cases hex1 : check_if_interface_exists w1 name = true
  · rw [if_pos hex1, if_pos hex1, Out.skip_andThen]
    obtain ⟨i, hi⟩ := linkLookup_isSome_of_check_true hex1
    have h := attach_init_res_tr hi hj
    refine ⟨h.1, ?_⟩
    rw [h.2]
    rfl
  · rw [if_neg hex1, if_neg hex1]
    have hexf : check_if_interface_exists w1 name = false := by
      cases hc : check_if_interface_exists w1 name with
      | false => rfl
      | true => exact absurd hc hex1
    rcases hx with hx | hx
    · exact absurd hx hex1
    cases hpeer : data.peer with
    | none => exact absurd hpeer hx
    | some p =>
      have hnl : lookupIdx (nameIs name) w1.links = none :=
        linkLookup_eq_none_of_check_false hexf
      have hcr : create_veth_interface name data w1 =
          ({ w1 with links := w1.links ++
              [⟨name, "veth", false, 0, none, some p, false⟩,
               ⟨p, "veth", false, 0, none, some name, false⟩] },
           [Event.linkAdd name "veth" (some p)]) := by
        unfold create_veth_interface
        rw [hpeer]
      rw [hcr, Out.step_andThen]
      have hi2 : linkLookup
          { w1 with links := w1.links ++
              [⟨name, "veth", false, 0, none, some p, false⟩,
               ⟨p, "veth", false, 0, none, some name, false⟩] } name =
          some w1.links.length := by
        show lookupIdx (nameIs name)
          (w1.links ++
            [⟨name, "veth", false, 0, none, some p, false⟩,
             ⟨p, "veth", false, 0, none, some name, false⟩]) = some w1.links.length
        rw [lookupIdx_append_of_none hnl]
        simp [lookupIdx_cons, nameIs]
      have hj2 : linkLookup
          { w1 with links := w1.links ++
              [⟨name, "veth", false, 0, none, some p, false⟩,
               ⟨p, "veth", false, 0, none, some name, false⟩] } data.bridge =
          some j := by
        show lookupIdx (nameIs data.bridge)
          (w1.links ++
            [⟨name, "veth", false, 0, none, some p, false⟩,
             ⟨p, "veth", false, 0, none, some name, false⟩]) = some j
        exact lookupIdx_append_left hj _
      have h := attach_init_res_tr hi2 hj2
      refine ⟨h.1, ?_⟩
      rw [List.singleton_append]
      rw [show ((⟨name, "veth", false, 0, none, some p, false⟩ : Link) ::
        ([⟨p, "veth", false, 0, none, some name, false⟩] : List Link)) =
        [⟨name, "veth", false, 0, none, some p, false⟩,
         ⟨p, "veth", false, 0, none, some name, false⟩] from rfl]
      rw [h.2]
      rfl

theorem contains_eq_true_iff (l : List String) (a : String) :
    l.contains a = true ↔ a ∈ l := by
  simp [List.contains]

theorem names_modify3 (ls : List Link) (i : Nat) (f1 f2 f3 : Link → Link)
    (h1 : ∀ l, (f1 l).name = l.name) (h2 : ∀ l, (f2 l).name = l.name)
    (h3 : ∀ l, (f3 l).name = l.name) :
    (modifyAt (modifyAt (modifyAt ls i f1) i f2) i f3).map Link.name =
      ls.map Link.name := by
  rw [modifyAt_map_name f3 h3, modifyAt_map_name f2 h2, modifyAt_map_name f1 h1]

/-- `configure_vnet_interface` does not touch processes, rules or the
set of link names. -/
theorem configure_vnet_fields (ifname : String) (w : World) :
    ((configure_vnet_interface ifname w).w).procs = w.procs ∧
    ((configure_vnet_interface ifname w).w).rules = w.rules ∧
    ((configure_vnet_interface ifname w).w).links.map Link.name =
      w.links.map Link.name := by
  unfold configure_vnet_interface
  cases hl : linkLookup w ifname with
  | none => exact ⟨rfl, rfl, rfl⟩
  | some i =>
    refine ⟨rfl, rfl, ?_⟩
    exact names_modify3 w.links i _ _ _ (fun _ => rfl) (fun _ => rfl) (fun _ => rfl)

/-- The iptables routine touches neither links nor processes. -/
theorem iptables_fields (ifname : String) (w : World) :
    ((create_vnet_interface_iptables_rules ifname w).1).links = w.links ∧
    ((create_vnet_interface_iptables_rules ifname w).1).procs = w.procs ∧
    ((create_vnet_interface_iptables_rules ifname w).1).macCtr = w.macCtr := by
  unfold create_vnet_interface_iptables_rules
  by_cases h1 : w.rules.contains (iptablesRuleFor ifname)
  · rw [if_pos h1]
    exact ⟨rfl, rfl, rfl⟩
  · rw [if_neg h1]
    by_cases h2 : w.iptablesFail.contains (iptablesRuleFor ifname)
    · rw [if_pos h2]
      exact ⟨rfl, rfl, rfl⟩
    · rw [if_neg h2]
      exact ⟨rfl, rfl, rfl⟩

/-- Creating a bridge makes the named interface exist, succeeds, and
does not touch processes or rules. -/
theorem create_vnet_ok {ifname : String} {w : World}
    (hex : check_if_interface_exists w ifname = false) :
    (create_vnet_interface ifname w).res = .ok () ∧
    check_if_interface_exists ((create_vnet_interface ifname w).w) ifname = true ∧
    ((create_vnet_interface ifname w).w).procs = w.procs ∧
    ((create_vnet_interface ifname w).w).rules = w.rules := by
  have hnl : lookupIdx (nameIs ifname) w.links = none :=
    linkLookup_eq_none_of_check_false hex
  have hlook : linkLookup
      { w with links := w.links ++ [⟨ifname, "bridge", false, 0, none, none, false⟩] }
      ifname = some w.links.length := by
    show lookupIdx (nameIs ifname)
      (w.links ++ [⟨ifname, "bridge", false, 0, none, none, false⟩]) =
      some w.links.length
    rw [lookupIdx_append_of_none hnl]
    simp [lookupIdx_cons, nameIs]
  have hcfg := configure_vnet_fields ifname
    { w with links := w.links ++ [⟨ifname, "bridge", false, 0, none, none, false⟩] }
  unfold create_vnet_interface
  refine ⟨?_, ?_, ?_, ?_⟩
  · show (configure_vnet_interface ifname _).res = .ok ()
    unfold configure_vnet_interface
    rw [hlook]
  · show check_if_interface_exists ((configure_vnet_interface ifname _).w) ifname = true
    rw [check_congr hcfg.2.2 ifname]
    unfold check_if_interface_exists
    rw [hlook]
    rfl
  · exact hcfg.1
  · exact hcfg.2.1

/-- Each bridge iteration of bring-up returns normally and records the
set-up call on its bridge. -/
theorem bridgeStep_ok (sniffer : Bool) (ifname : String) (w : World) :
    (bridgeStep sniffer ifname w).res = .ok () ∧
    Event.linkSetState ifname true ∈ (bridgeStep sniffer ifname w).tr := by
  unfold bridgeStep
  have key : ∀ w1 : World, check_if_interface_exists w1 ifname = true →
      (((Out.step (create_vnet_interface_iptables_rules ifname w1)).andThen fun w2 =>
        (ipLinkSetUpByName ifname w2).andThen fun w3 =>
        if sniffer && !check_if_sniffer_exists w3 ifname then
          Out.step (start_tcpdump_on_vnet_interface ifname w3)
        else Out.skip w3)).res = .ok () ∧
      Event.linkSetState ifname true ∈
        ((Out.step (create_vnet_interface_iptables_rules ifname w1)).andThen fun w2 =>
        (ipLinkSetUpByName ifname w2).andThen fun w3 =>
        if sniffer && !check_if_sniffer_exists w3 ifname then
          Out.step (start_tcpdump_on_vnet_interface ifname w3)
        else Out.skip w3).tr := by
    intro w1 h1
    have h2 : check_if_interface_exists
        ((create_vnet_interface_iptables_rules ifname w1).1) ifname = true := by
      unfold check_if_interface_exists linkLookup at h1 ⊢
      rw [(iptables_fields ifname w1).1]
      exact h1
    obtain ⟨i, hi⟩ := linkLookup_isSome_of_check_true h2
    have hsu : ipLinkSetUpByName ifname
        ((create_vnet_interface_iptables_rules ifname w1).1) =
        ⟨.ok (), setLinkStateAt ((create_vnet_interface_iptables_rules ifname w1).1) i true,
          [Event.linkSetState ifname true]⟩ := by
      unfold ipLinkSetUpByName
      rw [hi]
    rw [Out.step_andThen, hsu, Out.andThen_of_ok rfl]
    constructor
    · show (if _ then _ else _ : Out).res = .ok ()
      split
      · rfl
      · rfl
    · simp [List.mem_append]
  by_cases hex : check_if_interface_exists w ifname = true
  · rw [if_pos hex, Out.skip_andThen]
    exact key w hex
  · rw [if_neg hex]
    have hexf : check_if_interface_exists w ifname = false := by
      cases hc : check_if_interface_exists w ifname with
      | false => rfl
      | true => exact absurd hc hex
    have hcr := create_vnet_ok hexf
    rw [Out.andThen_of_ok hcr.1]
    have h := key _ hcr.2.1
    refine ⟨h.1, ?_⟩
    exact List.mem_append_right _ h.2

/-- The bridge loop of bring-up never raises and records a set-up call
for every switch bridge name. -/
theorem bridgeLoop_ok (sniffer : Bool) (names : List String) (w : World) :
    (bridgeLoop sniffer names w).res = .ok () ∧
    ∀ n ∈ names, Event.linkSetState n true ∈ (bridgeLoop sniffer names w).tr := by
  induction names generalizing w with
  | nil => exact ⟨rfl, by simp⟩
  | cons nm rest ih =>
    unfold bridgeLoop
    have hs := bridgeStep_ok sniffer nm w
    rw [Out.andThen_of_ok hs.1]
    refine ⟨(ih _).1, ?_⟩
    intro n hn
    rcases List.mem_cons.mp hn with hn | hn
    · subst hn
      exact List.mem_append_left _ hs.2
    · exact List.mem_append_right _ ((ih _).2 n hn)

/-- The iptables routine never spawns a capture process. -/
theorem iptables_no_spawn {ifname : String} {w : World} {a b : String} :
    Event.spawnTcpdump a b ∉ (create_vnet_interface_iptables_rules ifname w).2 := by
  intro h
  unfold create_vnet_interface_iptables_rules at h
  by_cases h1 : w.rules.contains (iptablesRuleFor ifname)
  · rw [if_pos h1] at h
    simp at h
  · rw [if_neg h1] at h
    by_cases h2 : w.iptablesFail.contains (iptablesRuleFor ifname)
    · rw [if_pos h2] at h
      simp at h
    · rw [if_neg h2] at h
      simp at h

/-- The sniffer scan only reads the process table. -/
theorem sniffer_congr {w w' : World} (h : w'.procs = w.procs) (ifname : String) :
    check_if_sniffer_exists w' ifname = check_if_sniffer_exists w ifname := by
  unfold check_if_sniffer_exists
  rw [h]

/-- A bridge iteration of bring-up with capture requested spawns tcpdump
exactly when no capture process for the interface is alive, writing to
the deterministic pcap path. -/
theorem bridgeStep_spawn (ifname : String) (w : World) :
    (check_if_sniffer_exists w ifname = true →
      ∀ pa, Event.spawnTcpdump ifname pa ∉ (bridgeStep true ifname w).tr) ∧
    (check_if_sniffer_exists w ifname = false →
      Event.spawnTcpdump ifname (VNET_SNIFFER_PCAP_DIR ++ "/" ++ ifname ++ ".pcap")
        ∈ (bridgeStep true ifname w).tr) := by
  have key : ∀ w1 : World, check_if_interface_exists w1 ifname = true →
      w1.procs = w.procs →
      (check_if_sniffer_exists w ifname = true →
        ∀ pa, Event.spawnTcpdump ifname pa ∉
          ((Out.step (create_vnet_interface_iptables_rules ifname w1)).andThen fun w2 =>
            (ipLinkSetUpByName ifname w2).andThen fun w3 =>
            if true && !check_if_sniffer_exists w3 ifname then
              Out.step (start_tcpdump_on_vnet_interface ifname w3)
            else Out.skip w3).tr) ∧
      (check_if_sniffer_exists w ifname = false →
        Event.spawnTcpdump ifname (VNET_SNIFFER_PCAP_DIR ++ "/" ++ ifname ++ ".pcap")
          ∈ ((Out.step (create_vnet_interface_iptables_rules ifname w1)).andThen fun w2 =>
            (ipLinkSetUpByName ifname w2).andThen fun w3 =>
            if true && !check_if_sniffer_exists w3 ifname then
              Out.step (start_tcpdump_on_vnet_interface ifname w3)
            else Out.skip w3).tr) := by
    intro w1 h1 hp
    have h2 : check_if_interface_exists
        ((create_vnet_interface_iptables_rules ifname w1).1) ifname = true := by
      unfold check_if_interface_exists linkLookup at h1 ⊢
      rw [(iptables_fields ifname w1).1]
      exact h1
    obtain ⟨i, hi⟩ := linkLookup_isSome_of_check_true h2
    have hsu : ipLinkSetUpByName ifname
        ((create_vnet_interface_iptables_rules ifname w1).1) =
        ⟨.ok (), setLinkStateAt ((create_vnet_interface_iptables_rules ifname w1).1) i true,
          [Event.linkSetState ifname true]⟩ := by
      unfold ipLinkSetUpByName
      rw [hi]
    rw [Out.step_andThen, hsu, Out.andThen_of_ok rfl]
    have hs3 : check_if_sniffer_exists
        (setLinkStateAt ((create_vnet_interface_iptables_rules ifname w1).1) i true)
        ifname = check_if_sniffer_exists w ifname := by
      have hp2 : (setLinkStateAt
          ((create_vnet_interface_iptables_rules ifname w1).1) i true).procs = w.procs := by
        show ((create_vnet_interface_iptables_rules ifname w1).1).procs = w.procs
        rw [(iptables_fields ifname w1).2.1, hp]
      exact sniffer_congr hp2 ifname
    constructor
    · intro hc pa hmem
      rw [if_neg (by rw [hs3, hc]; exact Bool.false_ne_true)] at hmem
      rcases List.mem_append.mp hmem with hm | hm
      · exact iptables_no_spawn hm
      · rcases List.mem_append.mp hm with hm | hm
        · simp at hm
        · simp [Out.skip] at hm
    · intro hc
      rw [if_pos (by rw [hs3, hc]; rfl)]
      refine List.mem_append_right _ (List.mem_append_right _ ?_)
      rw [Out.step_tr]
      unfold start_tcpdump_on_vnet_interface
      simp
  by_cases hex : check_if_interface_exists w ifname = true
  · unfold bridgeStep
    rw [if_pos hex, Out.skip_andThen]
    exact key w hex rfl
  · unfold bridgeStep
    rw [if_neg hex]
    have hexf : check_if_interface_exists w ifname = false := by
      cases hc : check_if_interface_exists w ifname with
      | false => rfl
      | true => exact absurd hc hex
    have hcr := create_vnet_ok hexf
    rw [Out.andThen_of_ok hcr.1]
    have h := key _ hcr.2.1 hcr.2.2.1
    constructor
    · intro hc pa hmem
      rcases List.mem_append.mp hmem with hm | hm
      · rcases create_vnet_tr hm with ⟨m, hm2⟩ | hm2 | ⟨b, hm2⟩ | ⟨m, hm2⟩ <;> simp at hm2
      · exact h.1 hc pa hm
    · intro hc
      exact List.mem_append_right _ (h.2 hc)

/-- Is the (first) link of this name operationally up? -/
def linkIsUp (w : World) (n : String) : Bool :=
  match linkLookup w n with
  | some i =>
    match w.links.get? i with
    | some l => l.isUp
    | none => false
  | none => false

theorem setUp_fix {l : Link} (h : l.isUp = true) : ({ l with isUp := true } : Link) = l := by
  cases l
  simp at h
  simp [h]

/-- On a host where the bridge already exists, is up and has its
isolation rule, one bridge iteration of bring-up is state-preserving but
still issues one mutating set-link-up call. -/
theorem bridgeStep_noop {ifname : String} {w : World}
    (hex : check_if_interface_exists w ifname = true)
    (hup : linkIsUp w ifname = true)
    (hrule : iptablesRuleFor ifname ∈ w.rules) :
    bridgeStep false ifname w =
      ⟨.ok (), w,
        [.iptablesCheck (iptablesRuleFor ifname),
         .logDebug ("IPtables DROP rule for VNet interface " ++ ifname ++
           " already exists, skipping creation"),
         .linkSetState ifname true]⟩ := by
  obtain ⟨i, hi⟩ := linkLookup_isSome_of_check_true hex
  have hipt : create_vnet_interface_iptables_rules ifname w =
      (w, [.iptablesCheck (iptablesRuleFor ifname),
           .logDebug ("IPtables DROP rule for VNet interface " ++ ifname ++
             " already exists, skipping creation")]) := by
    unfold create_vnet_interface_iptables_rules
    rw [if_pos ((contains_eq_true_iff _ _).mpr hrule)]
  obtain ⟨l, hgl, hnl⟩ := lookupIdx_get hi
  have hlu : l.isUp = true := by
    unfold linkIsUp at hup
    simp only [hi, hgl] at hup
    exact hup
  have hset : setLinkStateAt w i true = w := by
    unfold setLinkStateAt
    rw [modifyAt_of_fix hgl (setUp_fix hlu)]
  have hsu : ipLinkSetUpByName ifname w =
      ⟨.ok (), w, [Event.linkSetState ifname true]⟩ := by
    unfold ipLinkSetUpByName
    rw [hi]
    show (⟨.ok (), setLinkStateAt w i true, [Event.linkSetState ifname true]⟩ : Out) = _
    rw [hset]
  unfold bridgeStep
  rw [if_pos hex, Out.skip_andThen, hipt, Out.step_andThen, hsu, Out.andThen_of_ok rfl]
  rfl

theorem modifyAt_map {α : Type} (g : Link → α) (f : Link → Link)
    (hf : ∀ l, g (f l) = g l) (ls : List Link) (i : Nat) :
    (modifyAt ls i f).map g = ls.map g := by
  induction ls generalizing i with
  | nil => rfl
  | cons l rest ih =>
    cases i with
    | zero => simp [modifyAt, hf]
    | succ j => simp [modifyAt, ih]

/-- The warning `bring_down_vnet_interfaces` logs for a missing switch
bridge. -/
def downWarnMsg (n : String) : String :=
  "Tried to bring down VNet interface " ++ n ++ ", but the interface does not exist"

/-- Events of one veth bring-down iteration: a log line or the set-down
on the named veth — in particular no warning when it is missing. -/
theorem vethDownStep_tr {n : String} {w : World} {e : Event}
    (h : e ∈ (vethDownStep n w).2) :
    (∃ m, e = .logInfo m) ∨ e = .linkSetState n false := by
  unfold vethDownStep at h
  by_cases hc : check_if_interface_exists w n = true
  · rw [if_pos hc] at h
    cases hl : linkLookup w n with
    | none => rw [hl] at h; simp at h
    | some i =>
      rw [hl] at h
      simp at h
      rcases h with h | h
      · exact Or.inl ⟨_, h⟩
      · exact Or.inr h
  · rw [if_neg hc] at h
    simp at h

/-- Events of one bridge bring-down iteration: a log line, the set-down
on the named bridge, or the missing-bridge warning. -/
theorem bridgeDownStep_tr {n : String} {w : World} {e : Event}
    (h : e ∈ (bridgeDownStep n w).2) :
    (∃ m, e = .logInfo m) ∨ e = .linkSetState n false ∨
    e = .logWarning (downWarnMsg n) := by
  unfold bridgeDownStep at h
  by_cases hc : check_if_interface_exists w n = true
  · rw [if_pos hc] at h
    cases hl : linkLookup w n with
    | none => rw [hl] at h; simp at h
    | some i =>
      rw [hl] at h
      simp at h
      rcases h with h | h
      · exact Or.inl ⟨_, h⟩
      · exact Or.inr (Or.inl h)
  · rw [if_neg hc] at h
    simp at h
    exact Or.inr (Or.inr h)

/-- One veth bring-down iteration only flips operational state: rules,
processes, link names and everything but the up flag are preserved. -/
theorem vethDownStep_fields (n : String) (w : World) :
    (vethDownStep n w).1.rules = w.rules ∧
    (vethDownStep n w).1.procs = w.procs ∧
    (vethDownStep n w).1.links.map Link.name = w.links.map Link.name ∧
    (vethDownStep n w).1.links.map (fun l => { l with isUp := false }) =
      w.links.map (fun l => { l with isUp := false }) := by
  by_cases hc : check_if_interface_exists w n = true
  · obtain ⟨i, hi⟩ := linkLookup_isSome_of_check_true hc
    have hstep : vethDownStep n w =
        (setLinkStateAt w i false,
         [Event.logInfo ("Bringing down VNet veth interface " ++ n),
          Event.linkSetState n false]) := by
      unfold vethDownStep
      rw [if_pos hc, hi]
    rw [hstep]
    have hmap := modifyAt_map (fun l => ({ l with isUp := false } : Link))
      (fun l => { l with isUp := false }) (fun l => rfl) w.links i
    exact ⟨rfl, rfl, names_setLinkStateAt w i false, hmap⟩
  · have hstep : vethDownStep n w = (w, []) := by
      unfold vethDownStep
      rw [if_neg hc]
    rw [hstep]
    exact ⟨rfl, rfl, rfl, rfl⟩

theorem bridgeDownStep_fields (n : String) (w : World) :
    (bridgeDownStep n w).1.rules = w.rules ∧
    (bridgeDownStep n w).1.procs = w.procs ∧
    (bridgeDownStep n w).1.links.map Link.name = w.links.map Link.name ∧
    (bridgeDownStep n w).1.links.map (fun l => { l with isUp := false }) =
      w.links.map (fun l => { l with isUp := false }) := by
  by_cases hc : check_if_interface_exists w n = true
  · obtain ⟨i, hi⟩ := linkLookup_isSome_of_check_true hc
    have hstep : bridgeDownStep n w =
        (setLinkStateAt w i false,
         [Event.logInfo ("Bringing down VNet interface " ++ n),
          Event.linkSetState n false]) := by
      unfold bridgeDownStep
      rw [if_pos hc, hi]
    rw [hstep]
    have hmap := modifyAt_map (fun l => ({ l with isUp := false } : Link))
      (fun l => { l with isUp := false }) (fun l => rfl) w.links i
    exact ⟨rfl, rfl, names_setLinkStateAt w i false, hmap⟩
  · have hstep : bridgeDownStep n w =
        (w, [Event.logWarning (downWarnMsg n)]) := by
      unfold bridgeDownStep
      rw [if_neg hc]
      rfl
    rw [hstep]
    exact ⟨rfl, rfl, rfl, rfl⟩

theorem vethDownLoop_tr {names : List String} {w : World} {e : Event}
    (h : e ∈ (vethDownLoop names w).2) :
    (∃ m, e = .logInfo m) ∨ ∃ n, n ∈ names ∧ e = .linkSetState n false := by
  induction names generalizing w with
  | nil => simp [vethDownLoop] at h
  | cons nm rest ih =>
    rw [vethDownLoop_cons_snd] at h
    rcases List.mem_append.mp h with h | h
    · rcases vethDownStep_tr h with ⟨m, hm⟩ | hm
      · exact Or.inl ⟨m, hm⟩
      · exact Or.inr ⟨nm, List.mem_cons_self _ _, hm⟩
    · rcases ih h with hm | ⟨n, hn, hm⟩
      · exact Or.inl hm
      · exact Or.inr ⟨n, List.mem_cons_of_mem _ hn, hm⟩

theorem bridgeDownLoop_tr {names : List String} {w : World} {e : Event}
    (h : e ∈ (bridgeDownLoop names w).2) :
    (∃ m, e = .logInfo m) ∨
    ∃ n, n ∈ names ∧ (e = .linkSetState n false ∨ e = .logWarning (downWarnMsg n)) := by
  induction names generalizing w with
  | nil => simp [bridgeDownLoop] at h
  | cons nm rest ih =>
    rw [bridgeDownLoop_cons_snd] at h
    rcases List.mem_append.mp h with h | h
    · rcases bridgeDownStep_tr h with ⟨m, hm⟩ | hm | hm
      · exact Or.inl ⟨m, hm⟩
      · exact Or.inr ⟨nm, List.mem_cons_self _ _, Or.inl hm⟩
      · exact Or.inr ⟨nm, List.mem_cons_self _ _, Or.inr hm⟩
    · rcases ih h with hm | ⟨n, hn, hm⟩
      · exact Or.inl hm
      · exact Or.inr ⟨n, List.mem_cons_of_mem _ hn, hm⟩

theorem vethDownLoop_fields (names : List String) (w : World) :
    (vethDownLoop names w).1.rules = w.rules ∧
    (vethDownLoop names w).1.procs = w.procs ∧
    (vethDownLoop names w).1.links.map Link.name = w.links.map Link.name ∧
    (vethDownLoop names w).1.links.map (fun l => { l with isUp := false }) =
      w.links.map (fun l => { l with isUp := false }) := by
  induction names generalizing w with
  | nil => exact ⟨rfl, rfl, rfl, rfl⟩
  | cons nm rest ih =>
    have hs := vethDownStep_fields nm w
    have hl := ih (vethDownStep nm w).1
    rw [vethDownLoop_cons_fst]
    exact ⟨hl.1.trans hs.1, hl.2.1.trans hs.2.1,
      hl.2.2.1.trans hs.2.2.1, hl.2.2.2.trans hs.2.2.2⟩

theorem bridgeDownLoop_fields (names : List String) (w : World) :
    (bridgeDownLoop names w).1.rules = w.rules ∧
    (bridgeDownLoop names w).1.procs = w.procs ∧
    (bridgeDownLoop names w).1.links.map Link.name = w.links.map Link.name ∧
    (bridgeDownLoop names w).1.links.map (fun l => { l with isUp := false }) =
      w.links.map (fun l => { l with isUp := false }) := by
  induction names generalizing w with
  | nil => exact ⟨rfl, rfl, rfl, rfl⟩
  | cons nm rest ih =>
    have hs := bridgeDownStep_fields nm w
    have hl := ih (bridgeDownStep nm w).1
    rw [bridgeDownLoop_cons_fst]
    exact ⟨hl.1.trans hs.1, hl.2.1.trans hs.2.1,
      hl.2.2.1.trans hs.2.2.1, hl.2.2.2.trans hs.2.2.2⟩

/-- A missing switch bridge always gets its warning logged by the bridge
bring-down loop. -/
theorem bridgeDownLoop_warn {names : List String} {w : World} {n : String}
    (hn : n ∈ names) (ha : check_if_interface_exists w n = false) :
    Event.logWarning (downWarnMsg n) ∈ (bridgeDownLoop names w).2 := by
  induction names generalizing w with
  | nil => simp at hn
  | cons nm rest ih =>
    rw [bridgeDownLoop_cons_snd]
    rcases List.mem_cons.mp hn with hn | hn
    · subst hn
      refine List.mem_append_left _ ?_
      unfold bridgeDownStep
      rw [if_neg (by rw [ha]; exact Bool.false_ne_true)]
      simp [downWarnMsg]
    · refine List.mem_append_right _ ?_
      have ha2 : check_if_interface_exists (bridgeDownStep nm w).1 n = false :=
        (check_congr (bridgeDownStep_fields nm w).2.2.1 n).trans ha
      exact ih hn ha2

/-- An existing declared veth always gets its set-down call recorded by
the veth bring-down loop. -/
theorem vethDownLoop_sets_down {names : List String} {w : World} {n : String}
    (hn : n ∈ names) (hex : check_if_interface_exists w n = true) :
    Event.linkSetState n false ∈ (vethDownLoop names w).2 := by
  induction names generalizing w with
  | nil => simp at hn
  | cons nm rest ih =>
    rw [vethDownLoop_cons_snd]
    rcases List.mem_cons.mp hn with hn | hn
    · subst hn
      refine List.mem_append_left _ ?_
      obtain ⟨i, hi⟩ := linkLookup_isSome_of_check_true hex
      unfold vethDownStep
      rw [if_pos hex, hi]
      simp
    · refine List.mem_append_right _ ?_
      have hex2 : check_if_interface_exists (vethDownStep nm w).1 n = true :=
        (check_congr (vethDownStep_fields nm w).2.2.1 n).trans hex
      exact ih hn hex2

/-- An existing switch bridge always gets its set-down call recorded by
the bridge bring-down loop. -/
theorem bridgeDownLoop_sets_down {names : List String} {w : World} {n : String}
    (hn : n ∈ names) (hex : check_if_interface_exists w n = true) :
    Event.linkSetState n false ∈ (bridgeDownLoop names w).2 := by
  induction names generalizing w with
  | nil => simp at hn
  | cons nm rest ih =>
    rw [bridgeDownLoop_cons_snd]
    rcases List.mem_cons.mp hn with hn | hn
    · subst hn
      refine List.mem_append_left _ ?_
      obtain ⟨i, hi⟩ := linkLookup_isSome_of_check_true hex
      unfold bridgeDownStep
      rw [if_pos hex, hi]
      simp
    · refine List.mem_append_right _ ?_
      have hex2 : check_if_interface_exists (bridgeDownStep nm w).1 n = true :=
        (check_congr (bridgeDownStep_fields nm w).2.2.1 n).trans hex
      exact ih hn hex2

/-- A missing veth is skipped with no events at all and no state change:
the else branch of the veth bring-down iteration is empty. -/
theorem vethDownStep_missing_silent {n : String} {w : World}
    (ha : check_if_interface_exists w n = false) :
    vethDownStep n w = (w, []) := by
  unfold vethDownStep
  rw [if_neg (by rw [ha]; exact Bool.false_ne_true)]

/-- The bring-down pass is exactly its veth phase followed by its bridge
phase. -/
theorem bring_down_eq (cfg : Config) (w : World) :
    bring_down_vnet_interfaces cfg w =
      ((bridgeDownLoop (get_vnet_interface_names_from_config cfg)
         (vethDownLoop ((cfg.veths.getD []).map Prod.fst) w).1).1,
       (vethDownLoop ((cfg.veths.getD []).map Prod.fst) w).2 ++
       (bridgeDownLoop (get_vnet_interface_names_from_config cfg)
         (vethDownLoop ((cfg.veths.getD []).map Prod.fst) w).1).2) := by
  unfold bring_down_vnet_interfaces
  cases hv : cfg.veths with
  | none => rfl
  | some vs => rfl

theorem find?_eq_none_of_check_false {w : World} {n : String}
    (h : check_if_interface_exists w n = false) :
    w.links.find? (fun l => l.name == n) = none := by
  have h2 : lookupIdx (nameIs n) w.links = none :=
    linkLookup_eq_none_of_check_false h
  rw [lookupIdx_eq_none_iff] at h2
  rw [List.find?_eq_none]
  intro x hx
  have h3 := h2 x hx
  unfold nameIs at h3
  simp [h3]

/-- All-absent veth reports enumerate the declared veths with NA rows
whose Master column is the declared bridge. -/
theorem vethStatusRows_all_absent {w : World} (vs : List (String × VethSpec))
    (h : ∀ nd ∈ vs, check_if_interface_exists w nd.1 = false) :
    vethStatusRows w vs =
      .ok (vs.map (fun nd => [nd.1, "NA", "NA", "NA", nd.2.bridge])) := by
  induction vs with
  | nil => rfl
  | cons nd rest ih =>
    have hrow : vethStatusRow w nd.1 nd.2 =
        .ok [nd.1, "NA", "NA", "NA", nd.2.bridge] := by
      unfold vethStatusRow
      rw [find?_eq_none_of_check_false (h nd (List.mem_cons_self _ _))]
    rcases nd with ⟨n, d⟩
    show vethStatusRows w ((n, d) :: rest) = _
    unfold vethStatusRows
    rw [hrow, ih (fun nd hnd => h nd (List.mem_cons_of_mem _ hnd))]
    rfl

/-! ## Claim theorems -/

/-- C1: the claim states that a failure acting on one named interface —
in particular attaching a veth to a bridge that does not exist at apply
time — is reported as a non-fatal error, the pass continuing, and that
the pass never aborts with an unhandled exception.  This is false: at
this concrete topology, whose single veth names a bridge that does not
exist, bring-up aborts with an unhandled IndexError from the unguarded
indexing of the bridge lookup result. -/
theorem C1_counterexample :
    (bring_up_vnet_interfaces ⟨0, [], some [("v0", ⟨"br-missing", some "v0p", none⟩)]⟩
      false World.empty).failed = true := by
  decide

/-- C1 (amended): attaching a veth to a bridge that does not exist at
apply time is not reported as a non-fatal error; the unguarded indexing
of the bridge lookup result raises, the exception propagates, and the
reconciliation pass aborts: the remaining veth entries are never
processed (the loop output is the failing step's output). -/
theorem C1_missing_bridge_aborts (name : String) (data : VethSpec)
    (rest : List (String × VethSpec)) (w : World)
    (hb : check_if_interface_exists w data.bridge = false)
    (hbn : data.bridge ≠ name)
    (hbp : ∀ p, data.peer = some p → data.bridge ≠ p) :
    (vethStep name data w).failed = true ∧
    vethLoop ((name, data) :: rest) w = vethStep name data w := by
  have h := vethStep_failed_of_bridge_missing hb hbn hbp
  exact ⟨h, vethLoop_cons_of_failed h⟩

/-- C6: the claim states that a row for a missing interface carries the
NA placeholder in every field that is unavailable because the interface
is missing.  At this topology the declared veth does not exist, yet its
row's Master column — a live-state field for existing veths — shows the
declared bridge from the config instead of NA. -/
theorem C6_counterexample :
    show_vnet_veth_interface_status ⟨0, [], some [("v0", ⟨"vnet-br0", none, none⟩)]⟩
      World.empty = .ok [["v0", "NA", "NA", "NA", "vnet-br0"]] ∧
    "vnet-br0" ≠ "NA" :=
  ⟨rfl, by decide⟩

/-- C6 (amended): for a missing switch bridge the report emits an
all-NA row (the consumer list, computed from the config, always
present); for a missing veth the row is NA in the Status, L2 address and
Peer columns but falls back to the declared bridge from the config in
the Master column; and neither reporter raises for a missing interface
(the veth reporter returns normally whenever every declared veth is
missing, the bridge reporter is total by construction). -/
theorem C6_missing_rows (cfg : Config) (w : World) :
    (∀ ifname ∈ get_vnet_interface_names_from_config cfg,
      check_if_interface_exists w ifname = false →
      bridgeStatusRow cfg w ifname =
        [ifname, "NA", "NA", "NA", "NA",
         String.intercalate ", " (get_machines_by_vnet_interface_name cfg ifname)] ∧
      bridgeStatusRow cfg w ifname ∈ show_vnet_interface_status cfg w) ∧
    (∀ name data, (name, data) ∈ cfg.veths.getD [] →
      check_if_interface_exists w name = false →
      vethStatusRow w name data = .ok [name, "NA", "NA", "NA", data.bridge]) ∧
    ((∀ nd ∈ cfg.veths.getD [], check_if_interface_exists w nd.1 = false) →
      show_vnet_veth_interface_status cfg w =
        .ok ((cfg.veths.getD []).map
          (fun nd => [nd.1, "NA", "NA", "NA", nd.2.bridge]))) := by
  refine ⟨?_, ?_, ?_⟩
  · intro ifname hn ha
    constructor
    · unfold bridgeStatusRow
      rw [find?_eq_none_of_check_false ha]
    · exact List.mem_map_of_mem _ hn
  · intro name data hmem ha
    unfold vethStatusRow
    rw [find?_eq_none_of_check_false ha]
  · intro hall
    exact vethStatusRows_all_absent _ hall

/-- C8: the claim states the consumer list for the i-th bridge is
exactly the machines having an interface whose bridge field equals i.
At this topology machine m declares an interface on bridge 10 and the
10th bridge is named vnet-br10, yet that bridge's consumer list is empty
(the code compares against the digit value of the LAST character of the
name only, 0 here), not the claimed list containing m. -/
theorem C8_counterexample :
    (get_vnet_interface_names_from_config
      ⟨11, [("m", [("eth0", (10 : Int))])], none⟩).get? 10 = some "vnet-br10" ∧
    get_machines_by_vnet_interface_name
      ⟨11, [("m", [("eth0", (10 : Int))])], none⟩ "vnet-br10" = [] ∧
    ([] : List String) ≠ ["m"] := by
  decide

/-- C8 (amended): the i-th switch bridge is named `<prefix><i>`; the
consumer list for a bridge name contains machine m exactly when m has an
interface declaration whose bridge field equals the digit value of the
last character of the bridge name — which coincides with the index i
only for i ≤ 9. -/
theorem C8_naming_and_consumers (cfg : Config) (i : Nat) (ifname m : String) :
    (i < cfg.switches →
      (get_vnet_interface_names_from_config cfg).get? i =
        some (VNET_BRIDGE_NAME ++ toString i)) ∧
    (m ∈ get_machines_by_vnet_interface_name cfg ifname ↔
      ∃ ifaces, (m, ifaces) ∈ cfg.machines ∧
        ∃ iname b, (iname, b) ∈ ifaces ∧ b = lastCharInt ifname) ∧
    (∀ d : Nat, d < 10 →
      lastCharInt (VNET_BRIDGE_NAME ++ toString d) = Int.ofNat d) := by
  refine ⟨?_, ?_, by decide⟩
  · intro hi
    unfold get_vnet_interface_names_from_config
    rw [List.get?_eq_getElem?, List.getElem?_map, List.getElem?_range hi]
    rfl
  · constructor
    · intro h
      unfold get_machines_by_vnet_interface_name at h
      rw [List.mem_flatten] at h
      obtain ⟨l, hl, hm⟩ := h
      rw [List.mem_map] at hl
      obtain ⟨md, hmd, hleq⟩ := hl
      rw [← hleq] at hm
      rw [List.mem_map] at hm
      obtain ⟨itf, hitf, hm1⟩ := hm
      rw [List.mem_filter] at hitf
      refine ⟨md.2, ?_, itf.1, itf.2, by simpa using hitf.1, by simpa using hitf.2⟩
      rw [← hm1]
      simpa using hmd
    · rintro ⟨ifaces, hmm, iname, b, hib, hb⟩
      unfold get_machines_by_vnet_interface_name
      rw [List.mem_flatten]
      refine ⟨(ifaces.filter (fun intData => intData.2 == lastCharInt ifname)).map
        (fun _ => m), ?_, ?_⟩
      · exact List.mem_map_of_mem
          (fun md => (md.2.filter (fun intData => intData.2 == lastCharInt ifname)).map
            (fun _ => md.1)) hmm
      · rw [List.mem_map]
        refine ⟨(iname, b), ?_, rfl⟩
        rw [List.mem_filter]
        exact ⟨hib, by simp [hb]⟩

/-- C4: the claim states that bring-down skips any interface that does
not exist with a warning.  At this topology, whose declared veth does
not exist, bring-down emits no events at all — in particular no warning:
missing veths are skipped silently (the warning exists only for missing
switch bridges). -/
theorem C4_counterexample :
    check_if_interface_exists World.empty "v0" = false ∧
    (bring_down_vnet_interfaces ⟨0, [], some [("v0", ⟨"vnet-br0", none, none⟩)]⟩
      World.empty).2 = [] := by
  decide

/-- C4 (amended): bring-down sets every existing declared veth down, and
does so before any bridge (the set-down call of every existing declared
veth is recorded in the veth phase, which the pass runs in full before
the bridge phase); a missing veth is skipped silently — its iteration
emits no events and changes nothing, and the veth phase can never emit a
warning (it holds only log lines and set-down calls on declared veths);
every existing switch bridge is set down and a missing one is skipped
with a warning that is always logged; bridges are only ever set down;
the pass deletes nothing, and firewall rules and capture processes are
untouched (rules, processes, and every link field but the up flag are
preserved). -/
theorem C4_bring_down (cfg : Config) (w : World) :
    (bring_down_vnet_interfaces cfg w).2 =
      (vethDownLoop ((cfg.veths.getD []).map Prod.fst) w).2 ++
      (bridgeDownLoop (get_vnet_interface_names_from_config cfg)
        (vethDownLoop ((cfg.veths.getD []).map Prod.fst) w).1).2 ∧
    (∀ n ∈ (cfg.veths.getD []).map Prod.fst,
      check_if_interface_exists w n = true →
      Event.linkSetState n false ∈
        (vethDownLoop ((cfg.veths.getD []).map Prod.fst) w).2) ∧
    (∀ n, check_if_interface_exists w n = false → vethDownStep n w = (w, [])) ∧
    (∀ e ∈ (vethDownLoop ((cfg.veths.getD []).map Prod.fst) w).2,
      (∃ m, e = .logInfo m) ∨
      ∃ n, n ∈ (cfg.veths.getD []).map Prod.fst ∧ e = .linkSetState n false) ∧
    (∀ e ∈ (bridgeDownLoop (get_vnet_interface_names_from_config cfg)
        (vethDownLoop ((cfg.veths.getD []).map Prod.fst) w).1).2,
      (∃ m, e = .logInfo m) ∨
      ∃ n, n ∈ get_vnet_interface_names_from_config cfg ∧
        (e = .linkSetState n false ∨ e = .logWarning (downWarnMsg n))) ∧
    (∀ n ∈ get_vnet_interface_names_from_config cfg,
      check_if_interface_exists w n = true →
      Event.linkSetState n false ∈
        (bridgeDownLoop (get_vnet_interface_names_from_config cfg)
          (vethDownLoop ((cfg.veths.getD []).map Prod.fst) w).1).2) ∧
    (∀ n ∈ get_vnet_interface_names_from_config cfg,
      check_if_interface_exists w n = false →
      Event.logWarning (downWarnMsg n) ∈ (bring_down_vnet_interfaces cfg w).2) ∧
    (bring_down_vnet_interfaces cfg w).1.rules = w.rules ∧
    (bring_down_vnet_interfaces cfg w).1.procs = w.procs ∧
    (bring_down_vnet_interfaces cfg w).1.links.map (fun l => { l with isUp := false }) =
      w.links.map (fun l => { l with isUp := false }) := by
  have heq := bring_down_eq cfg w
  have hvf := vethDownLoop_fields ((cfg.veths.getD []).map Prod.fst) w
  have hbf := bridgeDownLoop_fields (get_vnet_interface_names_from_config cfg)
    (vethDownLoop ((cfg.veths.getD []).map Prod.fst) w).1
  refine ⟨by rw [heq],
    fun n hn hex => vethDownLoop_sets_down hn hex,
    fun n ha => vethDownStep_missing_silent ha,
    fun e he => vethDownLoop_tr he,
    fun e he => bridgeDownLoop_tr he, ?_, ?_, ?_, ?_, ?_⟩
  · intro n hn hex
    have hex2 : check_if_interface_exists
        (vethDownLoop ((cfg.veths.getD []).map Prod.fst) w).1 n = true :=
      (check_congr hvf.2.2.1 n).trans hex
    exact bridgeDownLoop_sets_down hn hex2
  · intro n hn ha
    rw [heq]
    refine List.mem_append_right _ ?_
    have ha2 : check_if_interface_exists
        (vethDownLoop ((cfg.veths.getD []).map Prod.fst) w).1 n = false :=
      (check_congr hvf.2.2.1 n).trans ha
    exact bridgeDownLoop_warn hn ha2
  · rw [heq]
    exact hbf.1.trans hvf.1
  · rw [heq]
    exact hbf.2.1.trans hvf.2.1
  · rw [heq]
    exact hbf.2.2.2.trans hvf.2.2.2

/-- The topology of the C2 idempotence counterexample: one switch bridge
and one veth pair attached to it. -/
def idemCfg : Config := ⟨1, [], some [("v0", ⟨"vnet-br0", some "v0p", none⟩)]⟩

/-- First bring-up of `idemCfg` on an empty host. -/
def firstRun : Out := bring_up_vnet_interfaces idemCfg false World.empty

/-- Second bring-up of `idemCfg`, immediately after the first. -/
def secondRun : Out := bring_up_vnet_interfaces idemCfg false firstRun.w

/-- C2: the claim states that running bring-up twice in succession from
an empty host performs zero additional mutating kernel calls on the
second run and yields an identical final kernel state.  Both conjuncts
fail at this topology: the second run re-issues mutating calls (set-up
on the bridge, attach, down, fresh MAC, up on the veth), and the
re-randomized veth MAC makes the final kernel state differ. -/
theorem C2_counterexample :
    secondRun.tr.filter Event.isMutatingKernelCall ≠ [] ∧
    secondRun.w ≠ firstRun.w := by
  decide

/-- C2 (amended): on a host where every switch bridge already exists, is
up and has its isolation rule — the state a first successful bring-up
leaves behind — a second bridge-phase run returns success and leaves the
kernel state exactly unchanged, but it does not become a no-op in terms
of calls: it re-issues exactly one mutating set-link-up call per bridge;
and with veths declared the second run moreover re-randomizes each veth
MAC, so even the final state differs (the counterexample above). -/
theorem C2_second_run_not_silent (names : List String) (w : World)
    (hconv : ∀ n ∈ names, check_if_interface_exists w n = true ∧
      linkIsUp w n = true ∧ iptablesRuleFor n ∈ w.rules) :
    (bridgeLoop false names w).res = .ok () ∧
    (bridgeLoop false names w).w = w ∧
    (bridgeLoop false names w).tr.filter Event.isMutatingKernelCall =
      names.map (fun n => Event.linkSetState n true) := by
  induction names with
  | nil => exact ⟨rfl, rfl, rfl⟩
  | cons nm rest ih =>
    have hcm := hconv nm (List.mem_cons_self _ _)
    have hstep := bridgeStep_noop hcm.1 hcm.2.1 hcm.2.2
    unfold bridgeLoop
    rw [hstep, Out.andThen_of_ok rfl]
    have ih2 := ih (fun n hn => hconv n (List.mem_cons_of_mem _ hn))
    refine ⟨ih2.1, ih2.2.1, ?_⟩
    show (List.filter Event.isMutatingKernelCall
      ([Event.iptablesCheck (iptablesRuleFor nm),
        Event.logDebug ("IPtables DROP rule for VNet interface " ++ nm ++
          " already exists, skipping creation"),
        Event.linkSetState nm true] ++ (bridgeLoop false rest w).tr)) = _
    rw [List.filter_append, ih2.2.2]
    rfl

/-- The converged host for the C2 witness: the single bridge of a
one-switch topology exists, is up, and has its isolation rule. -/
def convergedWorld : World :=
  ⟨[⟨"vnet-br0", "bridge", true, 0, none, none, false⟩],
   ["OUTPUT -o vnet-br0 -j DROP"], [], 1, []⟩

/-- C2 witness: the amended statement at the converged one-bridge
host. -/
theorem C2_second_run_not_silent_witness :
    (bridgeLoop false ["vnet-br0"] convergedWorld).res = .ok () ∧
    (bridgeLoop false ["vnet-br0"] convergedWorld).w = convergedWorld ∧
    (bridgeLoop false ["vnet-br0"] convergedWorld).tr.filter Event.isMutatingKernelCall =
      ["vnet-br0"].map (fun n => Event.linkSetState n true) :=
  C2_second_run_not_silent ["vnet-br0"] convergedWorld (by decide)

/-- C3: veth ownership symmetry.  An entry declared without `peer` is
never created by bring-up (no veth-kind link creation naming it is ever
recorded, whatever the topology and prior kernel state) and never
deleted by the delete pass (when its name is not also a switch-bridge
name); an entry declared with `peer` has the pair creation in its
bring-up step when its interface is absent (provided the STP setting,
which runs first, does not abort), and has the deletion in its delete
step when its interface is present. -/
theorem C3_veth_ownership (cfg : Config) (sniffer : Bool) (w : World)
    (vs : List (String × VethSpec)) (name : String) (data : VethSpec)
    (hv : cfg.veths = some vs)
    (hnd : (vs.map Prod.fst).Nodup)
    (hmem : (name, data) ∈ vs) :
    (data.peer = none →
      (∀ pe, Event.linkAdd name "veth" pe ∉ (bring_up_vnet_interfaces cfg sniffer w).tr) ∧
      (name ∉ get_vnet_interface_names_from_config cfg →
        Event.linkDel name ∉ (delete_vnet_interfaces cfg w).2)) ∧
    (∀ p, data.peer = some p →
      (check_if_interface_exists w name = false →
        (data.stp = none ∨ check_if_interface_exists w data.bridge = true) →
        Event.linkAdd name "veth" (some p) ∈ (vethStep name data w).tr) ∧
      (check_if_interface_exists w name = true →
        Event.linkDel name ∈ (vethDelStep name data w).2)) := by
  constructor
  · intro hp
    constructor
    · intro pe hcontra
      rcases bring_up_tr_mem hv hcontra with h | h | h
      · exact absurd (bridgeLoop_linkAdd h) (by decide)
      · simp at h
      · obtain ⟨d, q, hd, hdp, _⟩ := vethLoop_linkAdd h
        have hde : d = data := veths_assoc_unique hnd hd hmem
        rw [hde, hp] at hdp
        simp at hdp
    · intro hnb hcontra
      rcases delete_tr_mem hv hcontra with h | h
      · obtain ⟨d, hd, hdp⟩ := vethDelLoop_linkDel h
        have hde : d = data := veths_assoc_unique hnd hd hmem
        rw [hde, hp] at hdp
        exact hdp rfl
      · exact hnb (bridgeDelLoop_linkDel h)
  · intro p hp
    exact ⟨fun hn hb => vethStep_creates hp hn hb,
           fun hex => vethDelStep_deletes (by rw [hp]; simp) hex⟩

/-- C5: per-veth bring-up order.  Provided the entry's bridge exists and
the veth either exists or declares a peer, the step returns normally and
its trace is exactly: the STP setting on the bridge (when requested),
then the pair creation (only when a peer is declared and the interface is
absent), then the attach to the bridge, then the initialization of the
veth itself — set down, assign a freshly drawn MAC, set up. -/
theorem C5_veth_step_order (name : String) (data : VethSpec) (w : World)
    (hb : check_if_interface_exists w data.bridge = true)
    (hx : check_if_interface_exists w name = true ∨ data.peer ≠ none) :
    (vethStep name data w).res = .ok () ∧
    (vethStep name data w).tr =
      (match data.stp with
       | none => []
       | some b =>
         [Event.logInfo ((if b then "Enabling" else "Disabling") ++
            " STP on VNet interface " ++ data.bridge),
          Event.setBrStp data.bridge b]) ++
      ((if check_if_interface_exists w name then []
        else [Event.linkAdd name "veth" data.peer]) ++
       [Event.logInfo ("Creating VNet veth interface " ++ name),
        Event.linkSetMaster name data.bridge,
        Event.linkSetState name false, Event.linkSetAddress name w.macCtr,
        Event.linkSetState name true]) := by
  obtain ⟨j, hj⟩ := linkLookup_isSome_of_check_true hb
  unfold vethStep
  cases hstp : data.stp with
  | none =>
    have hok : stpStep data w = Out.skip w := by
      unfold stpStep
      rw [hstp]
    rw [hok, Out.skip_andThen]
    have h := vethStep_tail_trace hj hx
    refine ⟨h.1, ?_⟩
    rw [h.2]
    rfl
  | some b =>
    have hsp : stpStep data w =
        ⟨.ok (), setBrStpAt w j b,
          [Event.logInfo ((if b then "Enabling" else "Disabling") ++
            " STP on VNet interface " ++ data.bridge), Event.setBrStp data.bridge b]⟩ := by
      unfold stpStep
      rw [hstp, hj]
      rfl
    rw [hsp, Out.andThen_of_ok rfl]
    have hnames := names_setBrStpAt w j b
    have hj1 : linkLookup (setBrStpAt w j b) data.bridge = some j := by
      rw [linkLookup_congr hnames]
      exact hj
    have hx1 : check_if_interface_exists (setBrStpAt w j b) name = true ∨
        data.peer ≠ none := by
      rcases hx with hx | hx
      · exact Or.inl ((check_congr hnames name).trans hx)
      · exact Or.inr hx
    have h := vethStep_tail_trace hj1 hx1
    refine ⟨h.1, ?_⟩
    rw [h.2, check_congr hnames name]
    rfl

/-- A host on which only the bridge br0 exists and is up, with the MAC
entropy counter at 5. -/
def sampleWorld : World :=
  ⟨[⟨"br0", "bridge", true, 0, none, none, false⟩], [], [], 5, []⟩

/-- C5 witness: the step order at a concrete veth entry with STP
requested, a declared peer and an absent interface, on a host where only
the bridge exists. -/
theorem C5_veth_step_order_witness :
    (vethStep "v0" ⟨"br0", some "v0p", some true⟩ sampleWorld).res = .ok () ∧
    (vethStep "v0" ⟨"br0", some "v0p", some true⟩ sampleWorld).tr =
      (match (⟨"br0", some "v0p", some true⟩ : VethSpec).stp with
       | none => []
       | some b =>
         [Event.logInfo ((if b then "Enabling" else "Disabling") ++
            " STP on VNet interface " ++ (⟨"br0", some "v0p", some true⟩ : VethSpec).bridge),
          Event.setBrStp (⟨"br0", some "v0p", some true⟩ : VethSpec).bridge b]) ++
      ((if check_if_interface_exists sampleWorld "v0" then []
        else [Event.linkAdd "v0" "veth" (⟨"br0", some "v0p", some true⟩ : VethSpec).peer]) ++
       [Event.logInfo ("Creating VNet veth interface " ++ "v0"),
        Event.linkSetMaster "v0" (⟨"br0", some "v0p", some true⟩ : VethSpec).bridge,
        Event.linkSetState "v0" false, Event.linkSetAddress "v0" sampleWorld.macCtr,
        Event.linkSetState "v0" true]) :=
  C5_veth_step_order "v0" ⟨"br0", some "v0p", some true⟩ sampleWorld
    (by decide) (Or.inr (by decide))

/-- C7: the isolation-rule routine first checks by exact match whether
the egress-drop rule is present and attempts no insertion when it is;
when the check fails the rule is inserted; an insertion failure is
logged as an error, the routine returns normally, and the bridge loop
never raises and still processes every interface of the pass. -/
theorem C7_isolation_rule (ifname : String) (sniffer : Bool)
    (names : List String) (w : World) :
    (iptablesRuleFor ifname ∈ w.rules →
      create_vnet_interface_iptables_rules ifname w =
        (w, [.iptablesCheck (iptablesRuleFor ifname),
             .logDebug ("IPtables DROP rule for VNet interface " ++ ifname ++
               " already exists, skipping creation")])) ∧
    (iptablesRuleFor ifname ∉ w.rules → iptablesRuleFor ifname ∉ w.iptablesFail →
      create_vnet_interface_iptables_rules ifname w =
        ({ w with rules := w.rules ++ [iptablesRuleFor ifname] },
         [.iptablesCheck (iptablesRuleFor ifname),
          .logInfo ("Creating IPtables DROP rule to the outside world for VNet interface "
            ++ ifname),
          .iptablesAppend (iptablesRuleFor ifname)])) ∧
    (iptablesRuleFor ifname ∉ w.rules → iptablesRuleFor ifname ∈ w.iptablesFail →
      create_vnet_interface_iptables_rules ifname w =
        (w, [.iptablesCheck (iptablesRuleFor ifname),
             .logInfo ("Creating IPtables DROP rule to the outside world for VNet interface "
               ++ ifname),
             .iptablesAppend (iptablesRuleFor ifname),
             .logError "Unable to create IPtables rule"])) ∧
    ((bridgeLoop sniffer names w).res = .ok () ∧
     ∀ n ∈ names, Event.linkSetState n true ∈ (bridgeLoop sniffer names w).tr) := by
  refine ⟨?_, ?_, ?_, bridgeLoop_ok sniffer names w⟩
  · intro h
    unfold create_vnet_interface_iptables_rules
    rw [if_pos ((contains_eq_true_iff _ _).mpr h)]
  · intro h1 h2
    unfold create_vnet_interface_iptables_rules
    rw [if_neg (fun hc => h1 ((contains_eq_true_iff _ _).mp hc)),
        if_neg (fun hc => h2 ((contains_eq_true_iff _ _).mp hc))]
  · intro h1 h2
    unfold create_vnet_interface_iptables_rules
    rw [if_neg (fun hc => h1 ((contains_eq_true_iff _ _).mp hc)),
        if_pos ((contains_eq_true_iff _ _).mpr h2)]

/-- A host whose rule table already holds the isolation rule for br0. -/
def ruleWorld : World := ⟨[], ["OUTPUT -o br0 -j DROP"], [], 0, []⟩

/-- A host whose environment rejects the insertion of the isolation rule
for br0. -/
def failWorld : World := ⟨[], [], [], 0, ["OUTPUT -o br0 -j DROP"]⟩

/-- C7 witness: the three contract cases at concrete hosts, and the
continuation of the loop on the host with the failing insertion. -/
theorem C7_isolation_rule_witness :
    create_vnet_interface_iptables_rules "br0" ruleWorld =
      (ruleWorld, [.iptablesCheck (iptablesRuleFor "br0"),
        .logDebug ("IPtables DROP rule for VNet interface " ++ "br0" ++
          " already exists, skipping creation")]) ∧
    create_vnet_interface_iptables_rules "br0" World.empty =
      ({ World.empty with rules := World.empty.rules ++ [iptablesRuleFor "br0"] },
       [.iptablesCheck (iptablesRuleFor "br0"),
        .logInfo ("Creating IPtables DROP rule to the outside world for VNet interface "
          ++ "br0"),
        .iptablesAppend (iptablesRuleFor "br0")]) ∧
    create_vnet_interface_iptables_rules "br0" failWorld =
      (failWorld, [.iptablesCheck (iptablesRuleFor "br0"),
        .logInfo ("Creating IPtables DROP rule to the outside world for VNet interface "
          ++ "br0"),
        .iptablesAppend (iptablesRuleFor "br0"),
        .logError "Unable to create IPtables rule"]) ∧
    ((bridgeLoop false ["br0", "br1"] failWorld).res = .ok () ∧
     ∀ n ∈ ["br0", "br1"],
       Event.linkSetState n true ∈ (bridgeLoop false ["br0", "br1"] failWorld).tr) :=
  ⟨(C7_isolation_rule "br0" false [] ruleWorld).1 (by decide),
   (C7_isolation_rule "br0" false [] World.empty).2.1 (by decide) (by decide),
   (C7_isolation_rule "br0" false [] failWorld).2.2.1 (by decide) (by decide),
   (C7_isolation_rule "br0" false ["br0", "br1"] failWorld).2.2.2⟩

/-- C9: the capture-process scan returns true exactly when some live
process has both the capture tool name and the interface name as exact
argument-list tokens; a bring-up bridge iteration with capture requested
never spawns when a capture is already live, and spawns exactly one
tcpdump writing to the deterministic per-interface pcap path when none
is. -/
theorem C9_capture (ifname : String) (w : World) :
    (check_if_sniffer_exists w ifname = true ↔
      ∃ p ∈ w.procs, "tcpdump" ∈ p ∧ ifname ∈ p) ∧
    (check_if_sniffer_exists w ifname = true →
      ∀ pa, Event.spawnTcpdump ifname pa ∉ (bridgeStep true ifname w).tr) ∧
    (check_if_sniffer_exists w ifname = false →
      Event.spawnTcpdump ifname (VNET_SNIFFER_PCAP_DIR ++ "/" ++ ifname ++ ".pcap")
        ∈ (bridgeStep true ifname w).tr) := by
  refine ⟨?_, (bridgeStep_spawn ifname w).1, (bridgeStep_spawn ifname w).2⟩
  unfold check_if_sniffer_exists
  simp [List.any_eq_true, Bool.and_eq_true, contains_eq_true_iff]

/-- One-entry veths mapping used to instantiate claim theorems. -/
def sampleVeths : List (String × VethSpec) := [("v0", ⟨"br0", none, none⟩)]

/-- A small topology used to instantiate claim theorems. -/
def sampleCfg : Config := ⟨0, [], some sampleVeths⟩

/-- C3 witness: the statement applied at a concrete topology with a
peerless veth entry. -/
theorem C3_veth_ownership_witness :
    ((VethSpec.mk "br0" none none).peer = none →
      (∀ pe, Event.linkAdd "v0" "veth" pe ∉
        (bring_up_vnet_interfaces sampleCfg false World.empty).tr) ∧
      ("v0" ∉ get_vnet_interface_names_from_config sampleCfg →
        Event.linkDel "v0" ∉ (delete_vnet_interfaces sampleCfg World.empty).2)) ∧
    (∀ p, (VethSpec.mk "br0" none none).peer = some p →
      (check_if_interface_exists World.empty "v0" = false →
        ((VethSpec.mk "br0" none none).stp = none ∨
          check_if_interface_exists World.empty (VethSpec.mk "br0" none none).bridge = true) →
        Event.linkAdd "v0" "veth" (some p) ∈
          (vethStep "v0" (VethSpec.mk "br0" none none) World.empty).tr) ∧
      (check_if_interface_exists World.empty "v0" = true →
        Event.linkDel "v0" ∈
          (vethDelStep "v0" (VethSpec.mk "br0" none none) World.empty).2)) :=
  C3_veth_ownership sampleCfg false World.empty sampleVeths "v0" ⟨"br0", none, none⟩
    rfl (by decide) (by decide)

/-- C10: initialize (`configure_vnet_interface`) and attach
(`configure_veth_interface`) index the first element of the kernel
link-lookup result without a guard.  When the target interface exists
(and, for attach, the target bridge exists) the operation completes; when
the interface or bridge is absent the call raises instead of returning a
soft failure.  In particular a declared veth without a peer whose
interface has not been created by the external actor makes the veth pass
raise rather than skip, aborting the loop. -/
theorem C10_unguarded_indexing (ifname name : String) (data : VethSpec)
    (rest : List (String × VethSpec)) (w : World) :
    (check_if_interface_exists w ifname = true →
      (configure_vnet_interface ifname w).failed = false) ∧
    (check_if_interface_exists w ifname = false →
      (configure_vnet_interface ifname w).failed = true) ∧
    (check_if_interface_exists w name = true →
      check_if_interface_exists w data.bridge = true →
      (configure_veth_interface name data w).failed = false) ∧
    (check_if_interface_exists w name = false →
      (configure_veth_interface name data w).failed = true) ∧
    (check_if_interface_exists w data.bridge = false →
      (configure_veth_interface name data w).failed = true) ∧
    (data.peer = none → check_if_interface_exists w name = false →
      (vethStep name data w).failed = true ∧
      vethLoop ((name, data) :: rest) w = vethStep name data w) := by
  refine ⟨?_, ?_, ?_, ?_, ?_, ?_⟩
  · exact configure_vnet_ok_of_exists
  · exact configure_vnet_failed_of_missing
  · exact configure_veth_ok_of_exists
  · exact fun h =>
      configure_veth_failed_of_name_missing (linkLookup_eq_none_of_check_false h)
  · exact fun h =>
      configure_veth_failed_of_bridge_missing (linkLookup_eq_none_of_check_false h)
  · intro hp hn
    have h := vethStep_failed_of_peerless_absent hp hn
    exact ⟨h, vethLoop_cons_of_failed h⟩

/-- C1 witness: the amended statement applied at a concrete topology. -/
theorem C1_missing_bridge_aborts_witness :
    (vethStep "v0" ⟨"br-missing", some "v0p", none⟩ World.empty).failed = true ∧
    vethLoop [("v0", ⟨"br-missing", some "v0p", none⟩), ("v1", ⟨"br0", none, none⟩)]
        World.empty =
      vethStep "v0" ⟨"br-missing", some "v0p", none⟩ World.empty :=
  C1_missing_bridge_aborts "v0" ⟨"br-missing", some "v0p", none⟩
    [("v1", ⟨"br0", none, none⟩)] World.empty
    (by decide) (by decide)
    (by intro p hp; injection hp with hp; subst hp; decide)

end VNet
